import Mathlib

/-!
# com.c : a byte relay between the controlling terminal and a serial port

Shallow embedding of `src/com.c`.  The program is sequential and talks to the
kernel only through system calls, so the kernel is modelled as a `World`:

* the outcomes of the successive `read`, `write` and `epoll_wait` calls are
  scripts (lists) consumed in the order the calls are issued; a call issued
  when its script is empty never returns (`Run.stuck`);
* the line-discipline configuration of every file descriptor is explicit
  state (`World.attrs`), read by `tcgetattr` and replaced by `tcsetattr`
  (both calls succeed; com.c does not look at what they return);
* `World.modem fd` is the word `arg` holds after `ioctl(fd, TIOCMGET, &arg)`;
* every call the program issues is appended to `World.trace`.

Bytes are natural numbers, file descriptors and C `int`s are integers.
-/

namespace Com

/-! ## Constants of the system headers (Linux, `asm-generic`) -/

def EINTR : Int := 4
def EAGAIN : Int := 11

def STDIN_FILENO : Int := 0

def B0 : Nat := 0o0
def B50 : Nat := 0o1
def B75 : Nat := 0o2
def B110 : Nat := 0o3
def B134 : Nat := 0o4
def B150 : Nat := 0o5
def B200 : Nat := 0o6
def B300 : Nat := 0o7
def B600 : Nat := 0o10
def B1200 : Nat := 0o11
def B2400 : Nat := 0o13
def B4800 : Nat := 0o14
def B9600 : Nat := 0o15
def B19200 : Nat := 0o16
def B38400 : Nat := 0o17
def B57600 : Nat := 0o10001
def B115200 : Nat := 0o10002
def B230400 : Nat := 0o10003
def B460800 : Nat := 0o10004
def B500000 : Nat := 0o10005
def B576000 : Nat := 0o10006
def B921600 : Nat := 0o10007
def B1000000 : Nat := 0o10010
def B1152000 : Nat := 0o10011
def B1500000 : Nat := 0o10012
def B2000000 : Nat := 0o10013
def B2500000 : Nat := 0o10014
def B3000000 : Nat := 0o10015
def B3500000 : Nat := 0o10016
def B4000000 : Nat := 0o10017

def CBAUD : Nat := 0o10017
def CS8 : Nat := 0o60
def CREAD : Nat := 0o200
def CLOCAL : Nat := 0o4000
def CRTSCTS : Nat := 0o20000000000
def IGNPAR : Nat := 0o4
def VTIME : Nat := 5
def VMIN : Nat := 6

def TIOCM_DTR : Nat := 0x002
def TIOCM_RTS : Nat := 0x004
def TIOCM_CTS : Nat := 0x020
def TIOCM_CAR : Nat := 0x040
def TIOCM_RNG : Nat := 0x080
def TIOCM_DSR : Nat := 0x100

/-! ## Constants and types of com.c -/

/-- The `struct termios` of the C library. -/
structure termios where
  c_iflag : Nat
  c_oflag : Nat
  c_cflag : Nat
  c_lflag : Nat
  c_line : Nat
  c_cc : Nat → Nat
  c_ispeed : Nat
  c_ospeed : Nat

/-- One row of the baud-rate table (com.c:50-53). -/
structure speed_spec where
  name : String
  flag : Nat
deriving DecidableEq, Repr

def MAX_EPOLL_EVENTS : Nat := 5

/-- The table com.c:57-87; the terminating `NULL` row is the end of the list. -/
def speeds : List speed_spec :=
  [ ⟨"0", B0⟩,
    ⟨"50", B50⟩,
    ⟨"75", B75⟩,
    ⟨"110", B110⟩,
    ⟨"134", B134⟩,
    ⟨"150", B150⟩,
    ⟨"200", B200⟩,
    ⟨"300", B300⟩,
    ⟨"600", B600⟩,
    ⟨"1200", B1200⟩,
    ⟨"2400", B2400⟩,
    ⟨"4800", B4800⟩,
    ⟨"9600", B9600⟩,
    ⟨"19200", B19200⟩,
    ⟨"38400", B38400⟩,
    ⟨"57600", B57600⟩,
    ⟨"115200", B115200⟩,
    ⟨"230400", B230400⟩,
    ⟨"460800", B460800⟩,
    ⟨"500000", B500000⟩,
    ⟨"576000", B576000⟩,
    ⟨"921600", B921600⟩,
    ⟨"1000000", B1000000⟩,
    ⟨"1152000", B1152000⟩,
    ⟨"1500000", B1500000⟩,
    ⟨"2000000", B2000000⟩,
    ⟨"2500000", B2500000⟩,
    ⟨"3000000", B3000000⟩,
    ⟨"3500000", B3500000⟩,
    ⟨"4000000", B4000000⟩ ]

def COM_MAX_CHAR : Nat := 256

/-! ## The kernel -/

/-- What one `read` call does: it stores bytes (none at end of file), or it
returns -1 with `errno` set. -/
inductive ReadOutcome where
  | data (bytes : List Nat)
  | fail (errno : Int)
deriving DecidableEq, Repr

/-- What one `write` call does: it accepts the first `n` bytes of the buffer
and returns their number, or it returns -1 with `errno` set. -/
inductive WriteOutcome where
  | ok (n : Nat)
  | fail (errno : Int)
deriving DecidableEq, Repr

/-- What one `epoll_wait` call does: it reports the ready descriptors in some
order, or it returns -1. -/
inductive WaitOutcome where
  | ready (fds : List Int)
  | fail (errno : Int)
deriving DecidableEq, Repr

/-- The calls the program issues, in the order of `World.trace`. -/
inductive Event where
  | sys_open (path : String)
  | read (fd : Int) (count : Nat) (out : ReadOutcome)
  | write (fd : Int) (buf : List Nat) (out : WriteOutcome)
  | stderr (msg : String)
  | perror (msg : String)
  | ioctl_TIOCMGET (fd : Int)
  | tcsendbreak (fd : Int) (duration : Int)
  | tcgetattr (fd : Int)
  | tcflush (fd : Int)
  | tcsetattr (fd : Int) (t : termios)
  | epoll_create
  | epoll_ctl_add (fd : Int)
  | epoll_wait (out : WaitOutcome)
  | close (fd : Int)

structure World where
  reads : List ReadOutcome
  writes : List WriteOutcome
  waits : List WaitOutcome
  open_ret : Int
  epoll_create_ret : Int
  epoll_ctl_ret : Int → Int
  modem : Int → Nat
  attrs : Int → termios
  errno : Int
  trace : List Event

/-- How a run of a function ends: it returns, the process is ended by
`exit`/`abort`, or a blocking call never returns. -/
inductive Run (α : Type) where
  | done (a : α) (w : World)
  | exit (code : Int) (w : World)
  | abort (w : World)
  | stuck

def emit (e : Event) (w : World) : World :=
  { w with trace := w.trace ++ [e] }

/-- The call `read(fd, &c, count)`: the return value, the bytes stored in `c`,
the world after the call. -/
def sys_read (fd : Int) (count : Nat) (w : World) : Option (Int × List Nat × World) :=
  match w.reads with
  | [] => none
  | o :: rest =>
    let w1 := emit (Event.read fd count o) { w with reads := rest }
    match o with
    | ReadOutcome.data bytes => some (((bytes.take count).length : Int), bytes.take count, w1)
    | ReadOutcome.fail e => some (-1, [], { w1 with errno := e })

/-- The call `write(fd, buf, len)`: the return value and the world after. -/
def sys_write (fd : Int) (buf : List Nat) (w : World) : Option (Int × World) :=
  match w.writes with
  | [] => none
  | o :: rest =>
    let w1 := emit (Event.write fd buf o) { w with writes := rest }
    match o with
    | WriteOutcome.ok n => some (((buf.take n).length : Int), w1)
    | WriteOutcome.fail e => some (-1, { w1 with errno := e })

/-- The call `epoll_wait(efd, ev, MAX_EPOLL_EVENTS, -1)`: the return value and
the descriptors stored in `ev`. -/
def sys_epoll_wait (w : World) : Option (Int × List Int × World) :=
  match w.waits with
  | [] => none
  | o :: rest =>
    let w1 := emit (Event.epoll_wait o) { w with waits := rest }
    match o with
    | WaitOutcome.ready fds =>
      some (((fds.take MAX_EPOLL_EVENTS).length : Int), fds.take MAX_EPOLL_EVENTS, w1)
    | WaitOutcome.fail e => some (-1, [], { w1 with errno := e })

def sys_tcgetattr (fd : Int) (w : World) : termios × World :=
  (w.attrs fd, emit (Event.tcgetattr fd) w)

def sys_tcsetattr (fd : Int) (t : termios) (w : World) : World :=
  emit (Event.tcsetattr fd t) { w with attrs := Function.update w.attrs fd t }

/-! ## com.c -/

/-- com.c:89-108. -/
def print_status (fd : Int) (w : World) : World :=
  let arg := w.modem fd
  let w := emit (Event.ioctl_TIOCMGET fd) w
  let w := emit (Event.stderr "[STATUS]: ") w
  let w := if arg &&& TIOCM_RTS ≠ 0 then emit (Event.stderr "RTS ") w else w
  let w := if arg &&& TIOCM_CTS ≠ 0 then emit (Event.stderr "CTS ") w else w
  let w := if arg &&& TIOCM_DSR ≠ 0 then emit (Event.stderr "DSR ") w else w
  let w := if arg &&& TIOCM_CAR ≠ 0 then emit (Event.stderr "DCD ") w else w
  let w := if arg &&& TIOCM_DTR ≠ 0 then emit (Event.stderr "DTR ") w else w
  let w := if arg &&& TIOCM_RNG ≠ 0 then emit (Event.stderr "RI ") w else w
  emit (Event.stderr "\r\n") w

/-- The loop com.c:116-118, `do ret = read(..) while (ret < 0 && errno == EINTR)`.
Every iteration consumes one entry of the read script, so the length of the
script is fuel enough. -/
def read_retry (fd : Int) : Nat → World → Option (Int × List Nat × World)
  | 0, _ => none
  | fuel + 1, w =>
    match sys_read fd COM_MAX_CHAR w with
    | none => none
    | some (ret, c, w1) =>
      if ret < 0 ∧ w1.errno = EINTR then read_retry fd fuel w1 else some (ret, c, w1)

/-- The loop com.c:147-152, `while (write(to, &c, ret) == -1) ..`.  Every
iteration consumes one entry of the write script, so the length of the script
is fuel enough. -/
def write_retry (fd : Int) (buf : List Nat) : Nat → World → Option World
  | 0, _ => none
  | fuel + 1, w =>
    match sys_write fd buf w with
    | none => none
    | some (r, w1) =>
      if r = -1 then
        if w1.errno ≠ EAGAIN ∧ w1.errno ≠ EINTR then
          some (emit (Event.perror "write failed") w1)
        else write_retry fd buf fuel w1
      else some w1

/-- com.c:111-157. -/
def transfer_data (from_fd to_fd : Int) (is_control : Int) (w : World) : Run Int :=
  match read_retry from_fd w.reads.length w with
  | none => Run.stuck
  | some (ret, c, w1) =>
    if ret = 0 then
      Run.done (-3)
        (emit (Event.stderr "\nnothing to read. probably port disconnected. ret: 0\n") w1)
    else if ret = -1 then
      Run.done (-2) (emit (Event.perror "read") w1)
    else
      let forward (w2 : World) : Run Int :=
        match write_retry to_fd (c.take ret.toNat) w2.writes.length w2 with
        | none => Run.stuck
        | some w3 => Run.done 0 w3
      if is_control ≠ 0 then
        if c.head? = some 0x01 then
          Run.done (-1) w1
        else if c.head? = some 0x18 then
          Run.done 0 (print_status to_fd w1)
        else if c.head? = some 0x13 then
          forward (emit (Event.tcsendbreak to_fd 0) (emit (Event.stderr "sending break...\n\r") w1))
        else forward w1
      else forward w1

/-- com.c:159-170.  The line breaks between the names depend on the order in
which the arguments of one `fprintf` call are evaluated; the names are
recorded without them. -/
def usage (name : String) (w : World) : World :=
  let w := emit (Event.stderr ("example: " ++ name ++ " /dev/ttyS0 [115200]\n\n")) w
  let w := emit (Event.stderr "available baud rates:\n") w
  let w := speeds.foldl (fun w s => emit (Event.stderr ("   " ++ s.name)) w) w
  emit (Event.stderr "\n") w

/-- The loop com.c:199-206 over the rows of the table that are left: the
value of `speed` after it, and the world. -/
def scan_speeds (arg : String) : List speed_spec → Nat → World → Nat × World
  | [], speed, w => (speed, w)
  | s :: rest, speed, w =>
    if s.name ≠ arg then scan_speeds arg rest speed w
    else (s.flag, emit (Event.stderr ("setting speed " ++ s.name ++ "\n")) w)

/-- The value of `speed` at com.c:222: com.c:184 and com.c:197-207. -/
def select_speed (argv : List String) (w : World) : Nat × World :=
  if argv.length > 2 then scan_speeds (argv.getD 2 "") speeds B115200 w
  else (B115200, w)

/-- The loop com.c:256-267 over the events of one wait cycle; the value is
`quit` after the cycle. -/
def dispatch (comfd : Int) : List Int → Int → World → Run Int
  | [], quit, w => Run.done quit w
  | fd :: rest, _, w =>
    if fd = STDIN_FILENO then
      match transfer_data fd comfd 1 w with
      | Run.done quit w1 => dispatch comfd rest quit w1
      | r => r
    else if fd = comfd then
      match transfer_data fd STDIN_FILENO 0 w with
      | Run.done quit w1 => dispatch comfd rest quit w1
      | r => r
    else Run.abort (emit (Event.perror "fatal()") w)

/-- The loop com.c:249-268, `while (!quit)`.  Every iteration consumes one
entry of the wait script, so the length of the script is fuel enough. -/
def relay_loop (comfd : Int) : Nat → Int → World → Run Int
  | 0, quit, w => if quit ≠ 0 then Run.done quit w else Run.stuck
  | fuel + 1, quit, w =>
    if quit ≠ 0 then Run.done quit w
    else
      match sys_epoll_wait w with
      | none => Run.stuck
      | some (n, ev, w1) =>
        let w2 := if n ≤ 0 then emit (Event.perror "epoll_wait()") w1 else w1
        match dispatch comfd (ev.take n.toNat) quit w2 with
        | Run.done quit1 w3 => relay_loop comfd fuel quit1 w3
        | r => r

/-- The local variables of `main` that outlive its start-up. -/
structure Locals where
  comfd : Int
  speed : Nat
  oldtio : termios
  newtio : termios
  oldkey : termios
  newkey : termios

/-- The assignments com.c:212-217 to `newkey`. -/
def fill_newkey (newkey : termios) : termios :=
  { newkey with
    c_cflag := B9600 ||| CRTSCTS ||| CS8 ||| CLOCAL ||| CREAD
    c_iflag := IGNPAR
    c_oflag := 0
    c_lflag := 0
    c_cc := Function.update (Function.update newkey.c_cc VMIN 1) VTIME 0 }

/-- The assignments com.c:222-227 to `newtio`. -/
def fill_newtio (speed : Nat) (newtio : termios) : termios :=
  { newtio with
    c_cflag := speed ||| CS8 ||| CLOCAL ||| CREAD
    c_iflag := IGNPAR
    c_oflag := 0
    c_lflag := 0
    c_cc := Function.update (Function.update newtio.c_cc VMIN 1) VTIME 0 }

/-- com.c:182-247, the start-up of `main`.  `newkey` and `newtio` are the
indeterminate initial contents of the two structures `main` fills in part. -/
def main_init (argv : List String) (newkey newtio : termios) (w : World) : Run Locals :=
  let devicename := argv.getD 1 ""
  if argv.length < 2 then
    Run.exit 1 (usage (argv.getD 0 "") w)
  else
    let comfd := w.open_ret
    let w := emit (Event.sys_open devicename) w
    if comfd < 0 then
      Run.exit (-1) (emit (Event.perror devicename) w)
    else
      let sel := select_speed argv w
      let speed := sel.1
      let w := sel.2
      let w := emit (Event.stderr "C-a exit, C-x modem lines status\n") w
      let oldkey := (sys_tcgetattr STDIN_FILENO w).1
      let w := (sys_tcgetattr STDIN_FILENO w).2
      let newkey := fill_newkey newkey
      let w := emit (Event.tcflush STDIN_FILENO) w
      let w := sys_tcsetattr STDIN_FILENO newkey w
      let oldtio := (sys_tcgetattr comfd w).1
      let w := (sys_tcgetattr comfd w).2
      let newtio := fill_newtio speed newtio
      let w := emit (Event.tcflush comfd) w
      let w := sys_tcsetattr comfd newtio w
      let w := print_status comfd w
      let w := emit Event.epoll_create w
      let w := if w.epoll_create_ret = -1 then emit (Event.perror "epoll_create") w else w
      let w := emit (Event.epoll_ctl_add STDIN_FILENO) w
      let w := if w.epoll_ctl_ret STDIN_FILENO ≠ 0 then emit (Event.perror "epoll_ctl") w else w
      let w := emit (Event.epoll_ctl_add comfd) w
      let w := if w.epoll_ctl_ret comfd ≠ 0 then emit (Event.perror "epoll_ctl") w else w
      Run.done ⟨comfd, speed, oldtio, newtio, oldkey, newkey⟩ w

/-- com.c:172-275. -/
def main (argv : List String) (newkey newtio : termios) (w : World) : Run Int :=
  match main_init argv newkey newtio w with
  | Run.done l w1 =>
    match relay_loop l.comfd w1.waits.length 0 w1 with
    | Run.done _ w2 =>
      let w3 := sys_tcsetattr l.comfd l.oldtio w2
      let w4 := sys_tcsetattr STDIN_FILENO l.oldkey w3
      Run.done 0 (emit (Event.close l.comfd) w4)
    | r => r
  | Run.exit code w1 => Run.exit code w1
  | Run.abort w1 => Run.abort w1
  | Run.stuck => Run.stuck

/-! ## Observations on a trace -/

/-- The bytes descriptor `fd` has accepted, in order. -/
def written (fd : Int) : List Event → List Nat
  | [] => []
  | Event.write fd1 buf (WriteOutcome.ok n) :: rest =>
    if fd1 = fd then buf.take n ++ written fd rest else written fd rest
  | _ :: rest => written fd rest

/-- The descriptors of the status reports (`TIOCMGET` queries), in order. -/
def status_reports : List Event → List Int
  | [] => []
  | Event.ioctl_TIOCMGET fd :: rest => fd :: status_reports rest
  | _ :: rest => status_reports rest

/-- The descriptors of the break signals, in order. -/
def breaks : List Event → List Int
  | [] => []
  | Event.tcsendbreak fd _ :: rest => fd :: breaks rest
  | _ :: rest => breaks rest

/-- The attributes applied to `fd` by `tcsetattr`, in order. -/
def applied (fd : Int) : List Event → List termios
  | [] => []
  | Event.tcsetattr fd1 t :: rest => if fd1 = fd then t :: applied fd rest else applied fd rest
  | _ :: rest => applied fd rest

/-- The number of wait cycles started. -/
def wait_cycles : List Event → Nat
  | [] => 0
  | Event.epoll_wait _ :: rest => wait_cycles rest + 1
  | _ :: rest => wait_cycles rest

/-- The value a run returns, if it returns. -/
def Run.result {α : Type} : Run α → Option α
  | Run.done a _ => some a
  | _ => none

/-- The trace when the run has ended (empty for a run that is stuck). -/
def Run.events {α : Type} : Run α → List Event
  | Run.done _ w => w.trace
  | Run.exit _ w => w.trace
  | Run.abort w => w.trace
  | Run.stuck => []

/-- The value of a run that returns (`a0` for a run that does not). -/
def Run.value {α : Type} (r : Run α) (a0 : α) : α :=
  match r with
  | Run.done a _ => a
  | _ => a0

/-- The world when the run has ended (`w0` for a run that is stuck). -/
def Run.world {α : Type} (r : Run α) (w0 : World) : World :=
  match r with
  | Run.done _ w => w
  | Run.exit _ w => w
  | Run.abort w => w
  | Run.stuck => w0

/-! ## Classes of outcomes -/

/-- A `read` that was interrupted: the loop com.c:116-118 reads again. -/
def is_eintr : ReadOutcome → Bool
  | ReadOutcome.fail e => decide (e = EINTR)
  | ReadOutcome.data _ => false

/-- A `write` that failed with `EAGAIN` or `EINTR`: the loop com.c:147-152
writes again. -/
def transient : WriteOutcome → Bool
  | WriteOutcome.fail e => decide (e = EAGAIN) || decide (e = EINTR)
  | WriteOutcome.ok _ => false

/-- The value `read(fd, &c, COM_MAX_CHAR)` returns for an outcome. -/
def read_ret : ReadOutcome → Int
  | ReadOutcome.data bytes => ((bytes.take COM_MAX_CHAR).length : Int)
  | ReadOutcome.fail _ => -1

/-- The bytes `read(fd, &c, COM_MAX_CHAR)` stores in `c` for an outcome. -/
def read_buf : ReadOutcome → List Nat
  | ReadOutcome.data bytes => bytes.take COM_MAX_CHAR
  | ReadOutcome.fail _ => []

/-- The events of the read loop: the interrupted reads, then the read that
settled with outcome `o`. -/
def read_events (fd : Int) (reads : List ReadOutcome) (o : ReadOutcome) : List Event :=
  (reads.takeWhile is_eintr ++ [o]).map (Event.read fd COM_MAX_CHAR)

/-- The events of the write loop: the transient failures, then the write that
settled with outcome `o`, and the complaint when that one failed. -/
def write_events (fd : Int) (buf : List Nat) (writes : List WriteOutcome)
    (o : WriteOutcome) : List Event :=
  (writes.takeWhile transient ++ [o]).map (Event.write fd buf) ++
    (match o with
     | WriteOutcome.fail _ => [Event.perror "write failed"]
     | WriteOutcome.ok _ => [])

/-- The events of one status report on `fd` when the modem word is `arg`. -/
def status_events (fd : Int) (arg : Nat) : List Event :=
  [Event.ioctl_TIOCMGET fd, Event.stderr "[STATUS]: "] ++
  (if arg &&& TIOCM_RTS ≠ 0 then [Event.stderr "RTS "] else []) ++
  (if arg &&& TIOCM_CTS ≠ 0 then [Event.stderr "CTS "] else []) ++
  (if arg &&& TIOCM_DSR ≠ 0 then [Event.stderr "DSR "] else []) ++
  (if arg &&& TIOCM_CAR ≠ 0 then [Event.stderr "DCD "] else []) ++
  (if arg &&& TIOCM_DTR ≠ 0 then [Event.stderr "DTR "] else []) ++
  (if arg &&& TIOCM_RNG ≠ 0 then [Event.stderr "RI "] else []) ++
  [Event.stderr "\r\n"]

/-! ## Concrete worlds -/

def termios_zero : termios :=
  ⟨0, 0, 0, 0, 0, fun _ => 0, 0, 0⟩

def Locals.zero : Locals :=
  ⟨0, 0, termios_zero, termios_zero, termios_zero, termios_zero⟩

/-- A world with the given scripts in which `open` returns `fd`, the epoll
calls succeed, no modem line is asserted and nothing has happened yet. -/
def World.scripted (reads : List ReadOutcome) (writes : List WriteOutcome)
    (waits : List WaitOutcome) (fd : Int) : World :=
  { reads := reads, writes := writes, waits := waits, open_ret := fd,
    epoll_create_ret := 4, epoll_ctl_ret := fun _ => 0, modem := fun _ => 0,
    attrs := fun _ => termios_zero, errno := 0, trace := [] }

/-- From `w` to `w1` the program has issued calls, none of them `tcsetattr`,
and the configuration of every descriptor is what it was. -/
def Quiet (w w1 : World) : Prop :=
  w1.attrs = w.attrs ∧ ∃ d, w1.trace = w.trace ++ d ∧ ∀ fd, applied fd d = []

/-! ## Lemmas on the observations -/

theorem written_append (fd : Int) (a b : List Event) :
    written fd (a ++ b) = written fd a ++ written fd b := by
  induction a with
  | nil => rfl
  | cons e a ih =>
    cases e <;> simp [written, ih]
    case write fd1 buf out =>
      cases out <;> simp [written, ih]
      split <;> simp

theorem status_reports_append (a b : List Event) :
    status_reports (a ++ b) = status_reports a ++ status_reports b := by
  induction a with
  | nil => rfl
  | cons e a ih => cases e <;> simp [status_reports, ih]

theorem breaks_append (a b : List Event) : breaks (a ++ b) = breaks a ++ breaks b := by
  induction a with
  | nil => rfl
  | cons e a ih => cases e <;> simp [breaks, ih]

theorem applied_append (fd : Int) (a b : List Event) :
    applied fd (a ++ b) = applied fd a ++ applied fd b := by
  induction a with
  | nil => rfl
  | cons e a ih =>
    cases e <;> simp [applied, ih]
    split <;> simp

theorem wait_cycles_append (a b : List Event) :
    wait_cycles (a ++ b) = wait_cycles a + wait_cycles b := by
  induction a with
  | nil => simp [wait_cycles]
  | cons e a ih => cases e <;> simp [wait_cycles, ih]; omega

/-! ## The two retry loops -/

theorem read_retry_settles (fd : Int) : ∀ (fuel : Nat) (w : World) (o : ReadOutcome),
    w.reads.length ≤ fuel → w.reads.find? (fun x => !is_eintr x) = some o →
    ∃ w1, read_retry fd fuel w = some (read_ret o, read_buf o, w1) ∧
      w1.writes = w.writes ∧ w1.modem = w.modem ∧
      w1.trace = w.trace ++ read_events fd w.reads o := by
  intro fuel
  induction fuel with
  | zero =>
    intro w o hlen hfind
    have : w.reads = [] := List.length_eq_zero.mp (Nat.le_zero.mp hlen)
    simp [this] at hfind
  | succ fuel ih =>
    intro w o hlen hfind
    cases hr : w.reads with
    | nil => simp [hr] at hfind
    | cons x rest =>
      rw [hr] at hfind hlen
      cases x with
      | data bytes =>
        simp [List.find?, is_eintr] at hfind
        subst hfind
        refine ⟨emit (Event.read fd COM_MAX_CHAR (ReadOutcome.data bytes)) { w with reads := rest },
          ?_, rfl, rfl, ?_⟩
        · simp [read_retry, sys_read, hr, read_ret, read_buf]
        · simp [emit, read_events, is_eintr, List.takeWhile]
      | fail e =>
        by_cases he : e = EINTR
        · subst he
          simp [List.find?, is_eintr] at hfind
          have hlen1 : rest.length ≤ fuel := by simpa using hlen
          obtain ⟨w1, h1, h2, h3, h4⟩ :=
            ih { emit (Event.read fd COM_MAX_CHAR (ReadOutcome.fail EINTR)) { w with reads := rest }
                 with errno := EINTR } o hlen1 hfind
          refine ⟨w1, ?_, h2, h3, ?_⟩
          · simp [read_retry, sys_read, hr, h1]
          · simp [h4, emit, read_events, is_eintr, List.takeWhile]
        · simp [List.find?, is_eintr, he] at hfind
          subst hfind
          refine ⟨{ emit (Event.read fd COM_MAX_CHAR (ReadOutcome.fail e)) { w with reads := rest }
                    with errno := e }, ?_, rfl, rfl, ?_⟩
          · simp [read_retry, sys_read, hr, read_ret, read_buf, he]
          · simp [emit, read_events, is_eintr, List.takeWhile, he]

theorem write_retry_settles (fd : Int) (buf : List Nat) :
    ∀ (fuel : Nat) (w : World) (o : WriteOutcome),
    w.writes.length ≤ fuel → w.writes.find? (fun x => !transient x) = some o →
    ∃ w1, write_retry fd buf fuel w = some w1 ∧
      w1.trace = w.trace ++ write_events fd buf w.writes o := by
  intro fuel
  induction fuel with
  | zero =>
    intro w o hlen hfind
    have : w.writes = [] := List.length_eq_zero.mp (Nat.le_zero.mp hlen)
    simp [this] at hfind
  | succ fuel ih =>
    intro w o hlen hfind
    cases hr : w.writes with
    | nil => simp [hr] at hfind
    | cons x rest =>
      rw [hr] at hfind hlen
      cases x with
      | ok n =>
        simp [List.find?, transient] at hfind
        subst hfind
        refine ⟨emit (Event.write fd buf (WriteOutcome.ok n)) { w with writes := rest }, ?_, ?_⟩
        · have : ¬ ((buf.take n).length : Int) = -1 := by omega
          simp only [write_retry, sys_write, hr]
          rw [if_neg this]
        · simp [emit, write_events, transient, List.takeWhile]
      | fail e =>
        by_cases he : e = EAGAIN ∨ e = EINTR
        · have ht : transient (WriteOutcome.fail e) = true := by
            rcases he with he | he <;> simp [transient, he]
          simp [List.find?, ht] at hfind
          have hlen1 : rest.length ≤ fuel := by simpa using hlen
          obtain ⟨w1, h1, h4⟩ :=
            ih { emit (Event.write fd buf (WriteOutcome.fail e)) { w with writes := rest }
                 with errno := e } o hlen1 hfind
          refine ⟨w1, ?_, ?_⟩
          · have hcond : ¬ (e ≠ EAGAIN ∧ e ≠ EINTR) := by
              rcases he with he | he <;> simp [he]
            simp only [write_retry, sys_write, hr, emit]
            simp only [emit] at h1
            simp [hcond, h1]
          · simp [h4, emit, write_events, ht, List.takeWhile]
        · have ht : transient (WriteOutcome.fail e) = false := by
            simp only [not_or] at he
            simp [transient, he.1, he.2]
          simp [List.find?, ht] at hfind
          subst hfind
          refine ⟨emit (Event.perror "write failed")
            { emit (Event.write fd buf (WriteOutcome.fail e)) { w with writes := rest }
              with errno := e }, ?_, ?_⟩
          · simp only [not_or] at he
            simp [write_retry, sys_write, hr, he.1, he.2]
          · simp [emit, write_events, ht, List.takeWhile]

/-! ## What the events of the two loops amount to -/

theorem written_reads (fd fd1 : Int) (c : Nat) (l : List ReadOutcome) :
    written fd (l.map (Event.read fd1 c)) = [] := by
  induction l with
  | nil => rfl
  | cons x l ih => simp [written, ih]

theorem status_reports_reads (fd1 : Int) (c : Nat) (l : List ReadOutcome) :
    status_reports (l.map (Event.read fd1 c)) = [] := by
  induction l with
  | nil => rfl
  | cons x l ih => simp [status_reports, ih]

theorem breaks_reads (fd1 : Int) (c : Nat) (l : List ReadOutcome) :
    breaks (l.map (Event.read fd1 c)) = [] := by
  induction l with
  | nil => rfl
  | cons x l ih => simp [breaks, ih]

theorem status_reports_writes (fd1 : Int) (buf : List Nat) (l : List WriteOutcome) :
    status_reports (l.map (Event.write fd1 buf)) = [] := by
  induction l with
  | nil => rfl
  | cons x l ih => simp [status_reports, ih]

theorem breaks_writes (fd1 : Int) (buf : List Nat) (l : List WriteOutcome) :
    breaks (l.map (Event.write fd1 buf)) = [] := by
  induction l with
  | nil => rfl
  | cons x l ih => simp [breaks, ih]

theorem written_transient (fd fd1 : Int) (buf : List Nat) (l : List WriteOutcome) :
    written fd ((l.takeWhile transient).map (Event.write fd1 buf)) = [] := by
  induction l with
  | nil => rfl
  | cons x l ih =>
    cases x with
    | ok n => simp [List.takeWhile, transient, written]
    | fail e =>
      by_cases ht : transient (WriteOutcome.fail e) = true
      · simp [List.takeWhile, ht, written, ih]
      · simp [List.takeWhile, ht, written]

theorem written_read_events (fd fd1 : Int) (reads : List ReadOutcome) (o : ReadOutcome) :
    written fd (read_events fd1 reads o) = [] := by
  unfold read_events
  exact written_reads fd fd1 _ _

theorem status_reports_read_events (fd1 : Int) (reads : List ReadOutcome) (o : ReadOutcome) :
    status_reports (read_events fd1 reads o) = [] := by
  unfold read_events
  exact status_reports_reads fd1 _ _

theorem breaks_read_events (fd1 : Int) (reads : List ReadOutcome) (o : ReadOutcome) :
    breaks (read_events fd1 reads o) = [] := by
  unfold read_events
  exact breaks_reads fd1 _ _

/-- The write loop delivers what its settling write accepts, nothing more. -/
theorem written_write_events (fd : Int) (buf : List Nat) (writes : List WriteOutcome)
    (o : WriteOutcome) :
    written fd (write_events fd buf writes o) =
      (match o with
       | WriteOutcome.ok n => buf.take n
       | WriteOutcome.fail _ => []) := by
  unfold write_events
  rw [written_append, List.map_append, written_append, written_transient]
  cases o <;> simp [written]

theorem status_reports_write_events (fd : Int) (buf : List Nat) (writes : List WriteOutcome)
    (o : WriteOutcome) : status_reports (write_events fd buf writes o) = [] := by
  unfold write_events
  rw [status_reports_append, status_reports_writes]
  cases o <;> simp [status_reports]

theorem breaks_write_events (fd : Int) (buf : List Nat) (writes : List WriteOutcome)
    (o : WriteOutcome) : breaks (write_events fd buf writes o) = [] := by
  unfold write_events
  rw [breaks_append, breaks_writes]
  cases o <;> simp [breaks]

theorem head?_take_COM_MAX_CHAR (bytes : List Nat) :
    (bytes.take COM_MAX_CHAR).head? = bytes.head? := by
  cases bytes <;> simp [COM_MAX_CHAR]

theorem emit_trace (e : Event) (w : World) : (emit e w).trace = w.trace ++ [e] := rfl

theorem emit_writes (e : Event) (w : World) : (emit e w).writes = w.writes := rfl

theorem emit_attrs (e : Event) (w : World) : (emit e w).attrs = w.attrs := rfl

theorem emit_waits (e : Event) (w : World) : (emit e w).waits = w.waits := rfl

theorem emit_modem (e : Event) (w : World) : (emit e w).modem = w.modem := rfl

theorem ite_emit_trace (c : Prop) [Decidable c] (e : Event) (w : World) :
    (if c then emit e w else w).trace = w.trace ++ (if c then [e] else []) := by
  split <;> simp [emit]

theorem ite_emit_writes (c : Prop) [Decidable c] (e : Event) (w : World) :
    (if c then emit e w else w).writes = w.writes := by
  split <;> rfl

theorem ite_emit_attrs (c : Prop) [Decidable c] (e : Event) (w : World) :
    (if c then emit e w else w).attrs = w.attrs := by
  split <;> rfl

theorem ite_emit_waits (c : Prop) [Decidable c] (e : Event) (w : World) :
    (if c then emit e w else w).waits = w.waits := by
  split <;> rfl

theorem ite_emit_modem (c : Prop) [Decidable c] (e : Event) (w : World) :
    (if c then emit e w else w).modem = w.modem := by
  split <;> rfl

theorem print_status_trace (fd : Int) (w : World) :
    (print_status fd w).trace = w.trace ++ status_events fd (w.modem fd) := by
  simp only [print_status, ite_emit_trace, emit_trace, status_events, List.append_assoc]
  rfl

theorem print_status_writes (fd : Int) (w : World) : (print_status fd w).writes = w.writes := by
  simp only [print_status, ite_emit_writes, emit_writes]

theorem print_status_attrs (fd : Int) (w : World) : (print_status fd w).attrs = w.attrs := by
  simp only [print_status, ite_emit_attrs, emit_attrs]

theorem print_status_waits (fd : Int) (w : World) : (print_status fd w).waits = w.waits := by
  simp only [print_status, ite_emit_waits, emit_waits]

theorem status_reports_ite (c : Prop) [Decidable c] (s : String) :
    status_reports (if c then [Event.stderr s] else []) = [] := by
  split <;> rfl

theorem written_ite (fd : Int) (c : Prop) [Decidable c] (s : String) :
    written fd (if c then [Event.stderr s] else []) = [] := by
  split <;> rfl

theorem breaks_ite (c : Prop) [Decidable c] (s : String) :
    breaks (if c then [Event.stderr s] else []) = [] := by
  split <;> rfl

theorem applied_ite (fd : Int) (c : Prop) [Decidable c] (s : String) :
    applied fd (if c then [Event.stderr s] else []) = [] := by
  split <;> rfl

theorem status_reports_status_events (fd : Int) (arg : Nat) :
    status_reports (status_events fd arg) = [fd] := by
  unfold status_events
  simp only [status_reports_append, status_reports_ite]
  simp [status_reports]

theorem written_status_events (fd fd1 : Int) (arg : Nat) :
    written fd (status_events fd1 arg) = [] := by
  unfold status_events
  simp only [written_append, written_ite]
  simp [written]

theorem breaks_status_events (fd1 : Int) (arg : Nat) :
    breaks (status_events fd1 arg) = [] := by
  unfold status_events
  simp only [breaks_append, breaks_ite]
  simp [breaks]

theorem applied_status_events (fd fd1 : Int) (arg : Nat) :
    applied fd (status_events fd1 arg) = [] := by
  unfold status_events
  simp only [applied_append, applied_ite]
  simp [applied]

theorem take_COM_MAX_CHAR_length_ne (bytes : List Nat) (hne : bytes ≠ []) :
    ¬ ((bytes.take COM_MAX_CHAR).length : Int) = 0 ∧
    ¬ ((bytes.take COM_MAX_CHAR).length : Int) = -1 := by
  have hlen : (bytes.take COM_MAX_CHAR).length ≠ 0 := by
    cases bytes with
    | nil => exact absurd rfl hne
    | cons b bs => simp [COM_MAX_CHAR]
  constructor <;> omega

theorem ne_nil_of_head? {bytes : List Nat} {b : Nat} (h : bytes.head? = some b) :
    bytes ≠ [] := by
  intro hnil
  simp [hnil] at h

/-! ## The branches of transfer_data -/

/-- A chunk that is no command is handed to the write loop as it was read. -/
theorem transfer_data_forwards (from_fd to_fd is_control : Int) (w : World)
    (bytes : List Nat) (fin : WriteOutcome)
    (hr : w.reads.find? (fun x => !is_eintr x) = some (ReadOutcome.data bytes))
    (hne : bytes ≠ [])
    (hctl : is_control ≠ 0 →
      bytes.head? ≠ some 0x01 ∧ bytes.head? ≠ some 0x18 ∧ bytes.head? ≠ some 0x13)
    (hw : w.writes.find? (fun x => !transient x) = some fin) :
    ∃ w1, transfer_data from_fd to_fd is_control w = Run.done 0 w1 ∧
      w1.trace = w.trace ++ (read_events from_fd w.reads (ReadOutcome.data bytes) ++
        write_events to_fd (bytes.take COM_MAX_CHAR) w.writes fin) := by
  obtain ⟨w1, h1, hwr, -, htr⟩ := read_retry_settles from_fd w.reads.length w _ (le_refl _) hr
  rw [← hwr] at hw
  obtain ⟨w2, h2, htr2⟩ :=
    write_retry_settles to_fd (bytes.take COM_MAX_CHAR) w1.writes.length w1 fin (le_refl _) hw
  refine ⟨w2, ?_, ?_⟩
  · have hlen : (bytes.take COM_MAX_CHAR).length ≠ 0 := by
      cases bytes with
      | nil => exact absurd rfl hne
      | cons b bs => simp [COM_MAX_CHAR]
    have h0 : ¬ ((bytes.take COM_MAX_CHAR).length : Int) = 0 := by omega
    have h1n : ¬ ((bytes.take COM_MAX_CHAR).length : Int) = -1 := by omega
    simp only [transfer_data, h1, read_ret, read_buf, if_neg h0, if_neg h1n,
      head?_take_COM_MAX_CHAR, Int.toNat_ofNat, List.take_length, h2]
    by_cases hc : is_control = 0
    · simp [hc]
    · obtain ⟨a1, a2, a3⟩ := hctl hc
      simp [hc, a1, a2, a3]
  · rw [htr2, htr, hwr, List.append_assoc]


/-- A chunk from the control side that starts with 0x13: a break, then the
write loop on the chunk as it was read. -/
theorem transfer_data_breaks (from_fd to_fd is_control : Int) (w : World)
    (bytes : List Nat) (fin : WriteOutcome)
    (hctl : is_control ≠ 0)
    (hr : w.reads.find? (fun x => !is_eintr x) = some (ReadOutcome.data bytes))
    (h13 : bytes.head? = some 0x13)
    (hw : w.writes.find? (fun x => !transient x) = some fin) :
    ∃ w1, transfer_data from_fd to_fd is_control w = Run.done 0 w1 ∧
      w1.trace = w.trace ++ (read_events from_fd w.reads (ReadOutcome.data bytes) ++
        ([Event.stderr "sending break...\n\r", Event.tcsendbreak to_fd 0] ++
         write_events to_fd (bytes.take COM_MAX_CHAR) w.writes fin)) := by
  obtain ⟨w1, h1, hwr, -, htr⟩ := read_retry_settles from_fd w.reads.length w _ (le_refl _) hr
  obtain ⟨h0, h1n⟩ := take_COM_MAX_CHAR_length_ne bytes (ne_nil_of_head? h13)
  have hw2 : (emit (Event.tcsendbreak to_fd 0)
      (emit (Event.stderr "sending break...\n\r") w1)).writes.find?
        (fun x => !transient x) = some fin := by
    rw [emit_writes, emit_writes, hwr]
    exact hw
  obtain ⟨w2, h2, htr2⟩ :=
    write_retry_settles to_fd (bytes.take COM_MAX_CHAR) _ _ fin (le_refl _) hw2
  refine ⟨w2, ?_, ?_⟩
  · simp only [transfer_data, h1, read_ret, read_buf, if_neg h0, if_neg h1n,
      head?_take_COM_MAX_CHAR, h13, Int.toNat_ofNat, List.take_length, h2]
    simp [hctl]
  · rw [htr2, emit_trace, emit_trace, htr, emit_writes, emit_writes, hwr]
    simp only [List.append_assoc, List.cons_append, List.nil_append]

/-- A chunk from the control side that starts with 0x18: one status report and
no write call. -/
theorem transfer_data_reports (from_fd to_fd is_control : Int) (w : World)
    (bytes : List Nat)
    (hctl : is_control ≠ 0)
    (hr : w.reads.find? (fun x => !is_eintr x) = some (ReadOutcome.data bytes))
    (h18 : bytes.head? = some 0x18) :
    ∃ w1, transfer_data from_fd to_fd is_control w = Run.done 0 w1 ∧
      w1.writes = w.writes ∧
      w1.trace = w.trace ++ (read_events from_fd w.reads (ReadOutcome.data bytes) ++
        status_events to_fd (w.modem to_fd)) := by
  obtain ⟨w1, h1, hwr, hmod, htr⟩ :=
    read_retry_settles from_fd w.reads.length w _ (le_refl _) hr
  obtain ⟨h0, h1n⟩ := take_COM_MAX_CHAR_length_ne bytes (ne_nil_of_head? h18)
  refine ⟨print_status to_fd w1, ?_, ?_, ?_⟩
  · simp only [transfer_data, h1, read_ret, read_buf, if_neg h0, if_neg h1n,
      head?_take_COM_MAX_CHAR, h18]
    simp [hctl]
  · rw [print_status_writes, hwr]
  · rw [print_status_trace, htr, hmod, List.append_assoc]

/-- A chunk from the control side that starts with 0x01: nothing but the read. -/
theorem transfer_data_exits (from_fd to_fd is_control : Int) (w : World)
    (bytes : List Nat)
    (hctl : is_control ≠ 0)
    (hr : w.reads.find? (fun x => !is_eintr x) = some (ReadOutcome.data bytes))
    (h01 : bytes.head? = some 0x01) :
    ∃ w1, transfer_data from_fd to_fd is_control w = Run.done (-1) w1 ∧
      w1.writes = w.writes ∧
      w1.trace = w.trace ++ read_events from_fd w.reads (ReadOutcome.data bytes) := by
  obtain ⟨w1, h1, hwr, -, htr⟩ := read_retry_settles from_fd w.reads.length w _ (le_refl _) hr
  obtain ⟨h0, h1n⟩ := take_COM_MAX_CHAR_length_ne bytes (ne_nil_of_head? h01)
  refine ⟨w1, ?_, hwr, htr⟩
  simp only [transfer_data, h1, read_ret, read_buf, if_neg h0, if_neg h1n,
    head?_take_COM_MAX_CHAR, h01]
  simp [hctl]

/-- A read of zero bytes: the complaint, and the result -3. -/
theorem transfer_data_closed (from_fd to_fd is_control : Int) (w : World)
    (hr : w.reads.find? (fun x => !is_eintr x) = some (ReadOutcome.data [])) :
    ∃ w1, transfer_data from_fd to_fd is_control w = Run.done (-3) w1 ∧
      w1.writes = w.writes ∧
      w1.trace = w.trace ++ (read_events from_fd w.reads (ReadOutcome.data []) ++
        [Event.stderr "\nnothing to read. probably port disconnected. ret: 0\n"]) := by
  obtain ⟨w1, h1, hwr, -, htr⟩ := read_retry_settles from_fd w.reads.length w _ (le_refl _) hr
  refine ⟨emit (Event.stderr "\nnothing to read. probably port disconnected. ret: 0\n") w1,
    ?_, ?_, ?_⟩
  · simp only [transfer_data, h1, read_ret, read_buf]
    simp
  · rw [emit_writes, hwr]
  · rw [emit_trace, htr, List.append_assoc]

/-- A read that fails: the complaint, and the result -2. -/
theorem transfer_data_read_fails (from_fd to_fd is_control : Int) (w : World) (e : Int)
    (hr : w.reads.find? (fun x => !is_eintr x) = some (ReadOutcome.fail e)) :
    ∃ w1, transfer_data from_fd to_fd is_control w = Run.done (-2) w1 ∧
      w1.writes = w.writes ∧
      w1.trace = w.trace ++ (read_events from_fd w.reads (ReadOutcome.fail e) ++
        [Event.perror "read"]) := by
  obtain ⟨w1, h1, hwr, -, htr⟩ := read_retry_settles from_fd w.reads.length w _ (le_refl _) hr
  refine ⟨emit (Event.perror "read") w1, ?_, ?_, ?_⟩
  · simp only [transfer_data, h1, read_ret, read_buf]
    simp
  · rw [emit_writes, hwr]
  · rw [emit_trace, htr, List.append_assoc]

/-- A chunk that is not the exit command never gives a result other than 0,
however the write loop ends. -/
theorem transfer_data_chunk_zero (from_fd to_fd is_control : Int) (w : World)
    (bytes : List Nat)
    (hr : w.reads.find? (fun x => !is_eintr x) = some (ReadOutcome.data bytes))
    (hne : bytes ≠ [])
    (hx : is_control ≠ 0 → bytes.head? ≠ some 0x01)
    (r : Int) (w2 : World)
    (hrun : transfer_data from_fd to_fd is_control w = Run.done r w2) : r = 0 := by
  obtain ⟨w1, h1, -, -, -⟩ := read_retry_settles from_fd w.reads.length w _ (le_refl _) hr
  obtain ⟨h0, h1n⟩ := take_COM_MAX_CHAR_length_ne bytes hne
  simp only [transfer_data, h1, read_ret, read_buf, if_neg h0, if_neg h1n,
    head?_take_COM_MAX_CHAR] at hrun
  by_cases hc : is_control = 0
  · simp only [hc, ne_eq, not_true_eq_false, if_false] at hrun
    split at hrun
    · cases hrun
    · cases hrun
      rfl
  · simp only [ne_eq, hc, not_false_eq_true, if_true, if_neg (hx hc)] at hrun
    split at hrun
    · cases hrun
      rfl
    · split at hrun
      · split at hrun
        · cases hrun
        · cases hrun
          rfl
      · split at hrun
        · cases hrun
        · cases hrun
          rfl

/-! ## The claims on transfer_data -/

/-- C1. Byte transparency, terminal to serial: when `transfer_data` is called
with `is_control = 1` and the chunk it reads (after any number of interrupted
reads) has 1 to 256 bytes and a first byte that is none of 0x01, 0x18, 0x13,
and the destination accepts the write in full (after any number of transient
failures), then the bytes the destination has accepted are exactly the chunk,
no status report and no break is issued, and the result is 0. -/
theorem transfer_data_terminal_transparent (from_fd to_fd : Int) (w : World)
    (chunk : List Nat) (n : Nat)
    (hr : w.reads.find? (fun x => !is_eintr x) = some (ReadOutcome.data chunk))
    (hlo : 1 ≤ chunk.length) (hhi : chunk.length ≤ COM_MAX_CHAR)
    (h01 : chunk.head? ≠ some 0x01) (h18 : chunk.head? ≠ some 0x18)
    (h13 : chunk.head? ≠ some 0x13)
    (hw : w.writes.find? (fun x => !transient x) = some (WriteOutcome.ok n))
    (hfull : chunk.length ≤ n) :
    ∃ w1 d, transfer_data from_fd to_fd 1 w = Run.done 0 w1 ∧
      w1.trace = w.trace ++ d ∧ written to_fd d = chunk ∧
      status_reports d = [] ∧ breaks d = [] := by
  have hne : chunk ≠ [] := by
    intro h
    simp [h] at hlo
  obtain ⟨w1, hrun, htr⟩ := transfer_data_forwards from_fd to_fd 1 w chunk
    (WriteOutcome.ok n) hr hne (fun _ => ⟨h01, h18, h13⟩) hw
  refine ⟨w1, _, hrun, htr, ?_, ?_, ?_⟩
  · rw [written_append, written_read_events, written_write_events, List.nil_append,
      List.take_of_length_le hhi]
    exact List.take_of_length_le hfull
  · rw [status_reports_append, status_reports_read_events, status_reports_write_events]
    rfl
  · rw [breaks_append, breaks_read_events, breaks_write_events]
    rfl

/-- Witness of C1: the terminal sends `A`, 0x01, 0x18, 0x13 in one chunk
after an interrupted read, and the serial port takes it after one `EAGAIN`. -/
theorem transfer_data_terminal_transparent_witness :
    ∃ w1 d, transfer_data 0 3 1
        (World.scripted [ReadOutcome.fail EINTR, ReadOutcome.data [0x41, 0x01, 0x18, 0x13]]
          [WriteOutcome.fail EAGAIN, WriteOutcome.ok 4] [] 3) = Run.done 0 w1 ∧
      w1.trace = [] ++ d ∧ written 3 d = [0x41, 0x01, 0x18, 0x13] ∧
      status_reports d = [] ∧ breaks d = [] :=
  transfer_data_terminal_transparent 0 3
    (World.scripted [ReadOutcome.fail EINTR, ReadOutcome.data [0x41, 0x01, 0x18, 0x13]]
      [WriteOutcome.fail EAGAIN, WriteOutcome.ok 4] [] 3)
    [0x41, 0x01, 0x18, 0x13] 4 (by decide) (by decide) (by decide) (by decide) (by decide)
    (by decide) (by decide) (by decide)

/-- C2. No control interception, serial to terminal: when `transfer_data` is
called with `is_control = 0` and the chunk it reads has 1 to 256 bytes, whatever
its first byte, and the destination accepts the write in full, then the bytes
the destination has accepted are exactly the chunk, no status report and no
break is issued, and the result is 0; this is the call the relay loop makes for
a ready serial port, with the terminal as destination. -/
theorem transfer_data_serial_unmodified (from_fd to_fd : Int) (w : World)
    (chunk : List Nat) (n : Nat)
    (hr : w.reads.find? (fun x => !is_eintr x) = some (ReadOutcome.data chunk))
    (hlo : 1 ≤ chunk.length) (hhi : chunk.length ≤ COM_MAX_CHAR)
    (hw : w.writes.find? (fun x => !transient x) = some (WriteOutcome.ok n))
    (hfull : chunk.length ≤ n) :
    ∃ w1 d, transfer_data from_fd to_fd 0 w = Run.done 0 w1 ∧
      w1.trace = w.trace ++ d ∧ written to_fd d = chunk ∧
      status_reports d = [] ∧ breaks d = [] ∧
      (from_fd ≠ STDIN_FILENO → to_fd = STDIN_FILENO →
        ∀ quit, dispatch from_fd [from_fd] quit w = Run.done 0 w1) := by
  have hne : chunk ≠ [] := by
    intro h
    simp [h] at hlo
  obtain ⟨w1, hrun, htr⟩ := transfer_data_forwards from_fd to_fd 0 w chunk
    (WriteOutcome.ok n) hr hne (fun h => absurd rfl h) hw
  refine ⟨w1, _, hrun, htr, ?_, ?_, ?_, ?_⟩
  · rw [written_append, written_read_events, written_write_events, List.nil_append,
      List.take_of_length_le hhi]
    exact List.take_of_length_le hfull
  · rw [status_reports_append, status_reports_read_events, status_reports_write_events]
    rfl
  · rw [breaks_append, breaks_read_events, breaks_write_events]
    rfl
  · intro hfd hto quit
    subst hto
    simp only [dispatch, if_neg hfd, if_true, hrun]

/-- Witness of C2: the serial port sends 0x01, 0x18, 0x13 and the terminal
takes the three bytes. -/
theorem transfer_data_serial_unmodified_witness :
    ∃ w1 d, transfer_data 3 0 0
        (World.scripted [ReadOutcome.data [0x01, 0x18, 0x13]] [WriteOutcome.ok 3] [] 3) =
          Run.done 0 w1 ∧
      w1.trace = [] ++ d ∧ written 0 d = [0x01, 0x18, 0x13] ∧
      status_reports d = [] ∧ breaks d = [] ∧
      ((3 : Int) ≠ STDIN_FILENO → (0 : Int) = STDIN_FILENO →
        ∀ quit, dispatch 3 [3] quit
          (World.scripted [ReadOutcome.data [0x01, 0x18, 0x13]] [WriteOutcome.ok 3] [] 3) =
            Run.done 0 w1) :=
  transfer_data_serial_unmodified 3 0
    (World.scripted [ReadOutcome.data [0x01, 0x18, 0x13]] [WriteOutcome.ok 3] [] 3)
    [0x01, 0x18, 0x13] 3 (by decide) (by decide) (by decide) (by decide) (by decide)

/-- C3. Exit command: when `transfer_data` is called with `is_control` set and
the chunk it reads starts with 0x01, whatever follows, it issues no write call
(the write script is untouched, the destination has accepted nothing), no
status report and no break, and the result is -1. -/
theorem transfer_data_exit_command (from_fd to_fd is_control : Int) (w : World)
    (chunk : List Nat)
    (hctl : is_control ≠ 0)
    (hr : w.reads.find? (fun x => !is_eintr x) = some (ReadOutcome.data chunk))
    (h01 : chunk.head? = some 0x01) :
    ∃ w1 d, transfer_data from_fd to_fd is_control w = Run.done (-1) w1 ∧
      w1.trace = w.trace ++ d ∧ w1.writes = w.writes ∧ written to_fd d = [] ∧
      status_reports d = [] ∧ breaks d = [] := by
  obtain ⟨w1, hrun, hwr, htr⟩ := transfer_data_exits from_fd to_fd is_control w chunk hctl hr h01
  exact ⟨w1, _, hrun, htr, hwr, written_read_events _ _ _ _, status_reports_read_events _ _ _,
    breaks_read_events _ _ _⟩

/-- Witness of C3: Ctrl-A followed by two more bytes. -/
theorem transfer_data_exit_command_witness :
    ∃ w1 d, transfer_data 0 3 1
        (World.scripted [ReadOutcome.data [0x01, 0x41, 0x42]] [WriteOutcome.ok 3] [] 3) =
          Run.done (-1) w1 ∧
      w1.trace = [] ++ d ∧ w1.writes = [WriteOutcome.ok 3] ∧ written 3 d = [] ∧
      status_reports d = [] ∧ breaks d = [] :=
  transfer_data_exit_command 0 3 1
    (World.scripted [ReadOutcome.data [0x01, 0x41, 0x42]] [WriteOutcome.ok 3] [] 3)
    [0x01, 0x41, 0x42] (by decide) (by decide) (by decide)

/-- C4. Status query: when `transfer_data` is called with `is_control` set and
the chunk it reads starts with 0x18, whatever follows, it issues no write call
(the write script is untouched, the destination has accepted nothing), exactly
one status report, on the destination, no break, and the result is 0. -/
theorem transfer_data_status_query (from_fd to_fd is_control : Int) (w : World)
    (chunk : List Nat)
    (hctl : is_control ≠ 0)
    (hr : w.reads.find? (fun x => !is_eintr x) = some (ReadOutcome.data chunk))
    (h18 : chunk.head? = some 0x18) :
    ∃ w1 d, transfer_data from_fd to_fd is_control w = Run.done 0 w1 ∧
      w1.trace = w.trace ++ d ∧ w1.writes = w.writes ∧ written to_fd d = [] ∧
      status_reports d = [to_fd] ∧ breaks d = [] := by
  obtain ⟨w1, hrun, hwr, htr⟩ :=
    transfer_data_reports from_fd to_fd is_control w chunk hctl hr h18
  refine ⟨w1, _, hrun, htr, hwr, ?_, ?_, ?_⟩
  · rw [written_append, written_read_events, written_status_events]
    rfl
  · rw [status_reports_append, status_reports_read_events, status_reports_status_events]
    rfl
  · rw [breaks_append, breaks_read_events, breaks_status_events]
    rfl

/-- Witness of C4: Ctrl-X followed by two more bytes. -/
theorem transfer_data_status_query_witness :
    ∃ w1 d, transfer_data 0 3 1
        (World.scripted [ReadOutcome.data [0x18, 0x41, 0x42]] [WriteOutcome.ok 3] [] 3) =
          Run.done 0 w1 ∧
      w1.trace = [] ++ d ∧ w1.writes = [WriteOutcome.ok 3] ∧ written 3 d = [] ∧
      status_reports d = [3] ∧ breaks d = [] :=
  transfer_data_status_query 0 3 1
    (World.scripted [ReadOutcome.data [0x18, 0x41, 0x42]] [WriteOutcome.ok 3] [] 3)
    [0x18, 0x41, 0x42] (by decide) (by decide) (by decide)

/-- C7. When the relay stops.  Let `o` be the first read outcome that is not an
`EINTR` interruption (the interrupted reads before it are retried: they open
the trace).  Whenever `transfer_data` returns, its result is non-zero if and
only if `o` is a read of zero bytes, a read failure, or a chunk whose first
byte is 0x01 read with `is_control` set.  It does return in these three cases,
with -3, -2 and -1, and in the first two without a write call (the write script
is untouched, the destination has accepted nothing).  For every other chunk it
returns 0 however the write loop ends, a failed write of any kind included. -/
theorem transfer_data_stops_iff (from_fd to_fd is_control : Int) (w : World)
    (o : ReadOutcome)
    (hr : w.reads.find? (fun x => !is_eintr x) = some o) :
    (∀ r w1, transfer_data from_fd to_fd is_control w = Run.done r w1 →
      (r ≠ 0 ↔
        (o = ReadOutcome.data [] ∨ (∃ e, o = ReadOutcome.fail e) ∨
         (∃ chunk, o = ReadOutcome.data chunk ∧ is_control ≠ 0 ∧
            chunk.head? = some 0x01)))) ∧
    (o = ReadOutcome.data [] →
      ∃ w1 d, transfer_data from_fd to_fd is_control w = Run.done (-3) w1 ∧
        w1.trace = w.trace ++ (read_events from_fd w.reads o ++ d) ∧
        w1.writes = w.writes ∧ written to_fd (read_events from_fd w.reads o ++ d) = []) ∧
    (∀ e, o = ReadOutcome.fail e →
      ∃ w1 d, transfer_data from_fd to_fd is_control w = Run.done (-2) w1 ∧
        w1.trace = w.trace ++ (read_events from_fd w.reads o ++ d) ∧
        w1.writes = w.writes ∧ written to_fd (read_events from_fd w.reads o ++ d) = []) ∧
    (∀ chunk, o = ReadOutcome.data chunk → is_control ≠ 0 → chunk.head? = some 0x01 →
      ∃ w1, transfer_data from_fd to_fd is_control w = Run.done (-1) w1 ∧
        w1.trace = w.trace ++ read_events from_fd w.reads o) ∧
    (∀ chunk fin, o = ReadOutcome.data chunk → chunk ≠ [] →
      (is_control ≠ 0 → chunk.head? ≠ some 0x01) →
      w.writes.find? (fun x => !transient x) = some fin →
      ∃ w1 d, transfer_data from_fd to_fd is_control w = Run.done 0 w1 ∧
        w1.trace = w.trace ++ (read_events from_fd w.reads o ++ d)) := by
  refine ⟨?_, ?_, ?_, ?_, ?_⟩
  · intro r w2 hrun
    cases o with
    | fail e =>
      obtain ⟨w1, h, -, -⟩ := transfer_data_read_fails from_fd to_fd is_control w e hr
      rw [h] at hrun
      cases hrun
      simp
    | data bytes =>
      cases bytes with
      | nil =>
        obtain ⟨w1, h, -, -⟩ := transfer_data_closed from_fd to_fd is_control w hr
        rw [h] at hrun
        cases hrun
        simp
      | cons b bs =>
        by_cases hx : is_control ≠ 0 ∧ b = 0x01
        · have hb : (b :: bs).head? = some 0x01 := by simp [hx.2]
          obtain ⟨w1, h, -, -⟩ :=
            transfer_data_exits from_fd to_fd is_control w (b :: bs) hx.1 hr hb
          rw [h] at hrun
          cases hrun
          constructor
          · intro _
            exact Or.inr (Or.inr ⟨b :: bs, rfl, hx.1, hb⟩)
          · intro _
            decide
        · have hz : r = 0 :=
            transfer_data_chunk_zero from_fd to_fd is_control w (b :: bs) hr
              (List.cons_ne_nil b bs)
              (fun hc hb => hx ⟨hc, by simpa using hb⟩) r w2 hrun
          subst hz
          constructor
          · intro h
            exact absurd rfl h
          · intro h
            rcases h with h | ⟨e, h⟩ | ⟨chunk, h, hc, hb⟩
            · cases h
            · cases h
            · cases h
              exact absurd ⟨hc, by simpa using hb⟩ hx
  · intro ho
    subst ho
    obtain ⟨w1, h, hwr, htr⟩ := transfer_data_closed from_fd to_fd is_control w hr
    refine ⟨w1, _, h, htr, hwr, ?_⟩
    rw [written_append, written_read_events]
    rfl
  · intro e ho
    subst ho
    obtain ⟨w1, h, hwr, htr⟩ := transfer_data_read_fails from_fd to_fd is_control w e hr
    refine ⟨w1, _, h, htr, hwr, ?_⟩
    rw [written_append, written_read_events]
    rfl
  · intro chunk ho hc hb
    subst ho
    obtain ⟨w1, h, -, htr⟩ := transfer_data_exits from_fd to_fd is_control w chunk hc hr hb
    exact ⟨w1, h, htr⟩
  · intro chunk fin ho hne hx hw
    subst ho
    by_cases hc : is_control = 0
    · obtain ⟨w1, h, htr⟩ := transfer_data_forwards from_fd to_fd is_control w chunk fin hr hne
        (fun h => absurd hc h) hw
      exact ⟨w1, _, h, htr⟩
    · by_cases h18 : chunk.head? = some 0x18
      · obtain ⟨w1, h, -, htr⟩ :=
          transfer_data_reports from_fd to_fd is_control w chunk hc hr h18
        exact ⟨w1, _, h, htr⟩
      · by_cases h13 : chunk.head? = some 0x13
        · obtain ⟨w1, h, htr⟩ :=
            transfer_data_breaks from_fd to_fd is_control w chunk fin hc hr h13 hw
          exact ⟨w1, _, h, htr⟩
        · obtain ⟨w1, h, htr⟩ := transfer_data_forwards from_fd to_fd is_control w chunk fin
            hr hne (fun _ => ⟨hx hc, h18, h13⟩) hw
          exact ⟨w1, _, h, htr⟩

/-- Witness of C7: two interrupted reads, then a read of zero bytes. -/
theorem transfer_data_stops_iff_witness :
    ∃ w1 d, transfer_data 0 3 1
        (World.scripted [ReadOutcome.fail EINTR, ReadOutcome.fail EINTR, ReadOutcome.data []]
          [] [] 3) = Run.done (-3) w1 ∧
      w1.trace = [] ++ (read_events 0
        [ReadOutcome.fail EINTR, ReadOutcome.fail EINTR, ReadOutcome.data []]
        (ReadOutcome.data []) ++ d) ∧
      w1.writes = [] ∧
      written 3 (read_events 0
        [ReadOutcome.fail EINTR, ReadOutcome.fail EINTR, ReadOutcome.data []]
        (ReadOutcome.data []) ++ d) = [] :=
  (transfer_data_stops_iff 0 3 1
    (World.scripted [ReadOutcome.fail EINTR, ReadOutcome.fail EINTR, ReadOutcome.data []]
      [] [] 3) (ReadOutcome.data []) (by decide)).2.1 rfl

/-- C10, at a write that is accepted in part.  The serial port sends `A`, `B`
in one chunk and the terminal takes one byte of the two: `transfer_data`
returns 0 and the terminal has accepted `A` only; no second write is issued
for `B`. -/
theorem transfer_data_short_write :
    (transfer_data 3 0 0
      (World.scripted [ReadOutcome.data [0x41, 0x42]] [WriteOutcome.ok 1, WriteOutcome.ok 1]
        [] 3)).result = some 0 ∧
    written 0 (transfer_data 3 0 0
      (World.scripted [ReadOutcome.data [0x41, 0x42]] [WriteOutcome.ok 1, WriteOutcome.ok 1]
        [] 3)).events = [0x41] ∧
    ((transfer_data 3 0 0
      (World.scripted [ReadOutcome.data [0x41, 0x42]] [WriteOutcome.ok 1, WriteOutcome.ok 1]
        [] 3)).world (World.scripted [] [] [] 3)).writes = [WriteOutcome.ok 1] := by
  decide

/-! ## The relay loop leaves the line-discipline configuration alone -/

theorem Quiet.refl (w : World) : Quiet w w :=
  ⟨rfl, [], by simp, fun _ => rfl⟩

theorem Quiet.trans {w w1 w2 : World} (h1 : Quiet w w1) (h2 : Quiet w1 w2) : Quiet w w2 := by
  obtain ⟨a1, d1, t1, q1⟩ := h1
  obtain ⟨a2, d2, t2, q2⟩ := h2
  refine ⟨a2.trans a1, d1 ++ d2, ?_, ?_⟩
  · rw [t2, t1, List.append_assoc]
  · intro fd
    rw [applied_append, q1, q2]
    rfl

theorem Quiet.step {w w1 : World} (e : Event) (he : ∀ fd, applied fd [e] = [])
    (h : Quiet w w1) : Quiet w (emit e w1) := by
  obtain ⟨a1, d1, t1, q1⟩ := h
  refine ⟨a1, d1 ++ [e], ?_, ?_⟩
  · rw [emit_trace, t1, List.append_assoc]
  · intro fd
    rw [applied_append, q1, he]
    rfl

theorem Quiet.ite_step {w w1 : World} (c : Prop) [Decidable c] (e : Event)
    (he : ∀ fd, applied fd [e] = []) (h : Quiet w w1) :
    Quiet w (if c then emit e w1 else w1) := by
  split
  · exact h.step e he
  · exact h

theorem Quiet.report {w w1 : World} (fd : Int) (h : Quiet w w1) :
    Quiet w (print_status fd w1) := by
  refine h.trans ⟨print_status_attrs fd w1, _, print_status_trace fd w1, ?_⟩
  intro fd1
  exact applied_status_events fd1 fd _

theorem sys_read_quiet {fd : Int} {count : Nat} {w w1 : World} {r : Int} {c : List Nat}
    (h : sys_read fd count w = some (r, c, w1)) : Quiet w w1 := by
  unfold sys_read at h
  cases hr : w.reads with
  | nil => simp [hr] at h
  | cons o rest =>
    simp only [hr] at h
    cases o with
    | data bytes =>
      simp only [Option.some.injEq, Prod.mk.injEq] at h
      obtain ⟨-, -, rfl⟩ := h
      exact ⟨rfl, _, rfl, fun _ => rfl⟩
    | fail e =>
      simp only [Option.some.injEq, Prod.mk.injEq] at h
      obtain ⟨-, -, rfl⟩ := h
      exact ⟨rfl, _, rfl, fun _ => rfl⟩

theorem sys_write_quiet {fd : Int} {buf : List Nat} {w w1 : World} {r : Int}
    (h : sys_write fd buf w = some (r, w1)) : Quiet w w1 := by
  unfold sys_write at h
  cases hr : w.writes with
  | nil => simp [hr] at h
  | cons o rest =>
    simp only [hr] at h
    cases o with
    | ok n =>
      simp only [Option.some.injEq, Prod.mk.injEq] at h
      obtain ⟨-, rfl⟩ := h
      exact ⟨rfl, _, rfl, fun _ => rfl⟩
    | fail e =>
      simp only [Option.some.injEq, Prod.mk.injEq] at h
      obtain ⟨-, rfl⟩ := h
      exact ⟨rfl, _, rfl, fun _ => rfl⟩

theorem sys_epoll_wait_quiet {w w1 : World} {n : Int} {ev : List Int}
    (h : sys_epoll_wait w = some (n, ev, w1)) : Quiet w w1 := by
  unfold sys_epoll_wait at h
  cases hr : w.waits with
  | nil => simp [hr] at h
  | cons o rest =>
    simp only [hr] at h
    cases o with
    | ready fds =>
      simp only [Option.some.injEq, Prod.mk.injEq] at h
      obtain ⟨-, -, rfl⟩ := h
      exact ⟨rfl, _, rfl, fun _ => rfl⟩
    | fail e =>
      simp only [Option.some.injEq, Prod.mk.injEq] at h
      obtain ⟨-, -, rfl⟩ := h
      exact ⟨rfl, _, rfl, fun _ => rfl⟩

theorem read_retry_quiet (fd : Int) : ∀ (fuel : Nat) (w w1 : World) (r : Int) (c : List Nat),
    read_retry fd fuel w = some (r, c, w1) → Quiet w w1 := by
  intro fuel
  induction fuel with
  | zero =>
    intro w w1 r c h
    simp [read_retry] at h
  | succ fuel ih =>
    intro w w1 r c h
    unfold read_retry at h
    cases hs : sys_read fd COM_MAX_CHAR w with
    | none => simp [hs] at h
    | some x =>
      obtain ⟨r0, c0, w0⟩ := x
      simp only [hs] at h
      have q0 : Quiet w w0 := sys_read_quiet hs
      split at h
      · exact q0.trans (ih w0 w1 r c h)
      · simp only [Option.some.injEq, Prod.mk.injEq] at h
        obtain ⟨-, -, rfl⟩ := h
        exact q0

theorem write_retry_quiet (fd : Int) (buf : List Nat) : ∀ (fuel : Nat) (w w1 : World),
    write_retry fd buf fuel w = some w1 → Quiet w w1 := by
  intro fuel
  induction fuel with
  | zero =>
    intro w w1 h
    simp [write_retry] at h
  | succ fuel ih =>
    intro w w1 h
    unfold write_retry at h
    cases hs : sys_write fd buf w with
    | none => simp [hs] at h
    | some x =>
      obtain ⟨r0, w0⟩ := x
      simp only [hs] at h
      have q0 : Quiet w w0 := sys_write_quiet hs
      split at h
      · split at h
        · simp only [Option.some.injEq] at h
          subst h
          exact q0.step _ (fun _ => rfl)
        · exact q0.trans (ih w0 w1 h)
      · simp only [Option.some.injEq] at h
        subst h
        exact q0

theorem transfer_data_quiet (from_fd to_fd is_control : Int) (w w2 : World) (r : Int)
    (h : transfer_data from_fd to_fd is_control w = Run.done r w2) : Quiet w w2 := by
  unfold transfer_data at h
  cases hs : read_retry from_fd w.reads.length w with
  | none => simp [hs] at h
  | some x =>
    obtain ⟨ret, c, w1⟩ := x
    simp only [hs] at h
    have q1 : Quiet w w1 := read_retry_quiet from_fd _ w w1 ret c hs
    have fwd : ∀ (w3 : World), Quiet w w3 →
        (match write_retry to_fd (c.take ret.toNat) w3.writes.length w3 with
          | none => Run.stuck
          | some w4 => Run.done 0 w4) = Run.done r w2 → Quiet w w2 := by
      intro w3 q3 h3
      cases hw : write_retry to_fd (c.take ret.toNat) w3.writes.length w3 with
      | none => simp [hw] at h3
      | some w4 =>
        simp only [hw, Run.done.injEq] at h3
        obtain ⟨-, rfl⟩ := h3
        exact q3.trans (write_retry_quiet to_fd _ _ w3 w4 hw)
    split at h
    · simp only [Run.done.injEq] at h
      obtain ⟨-, rfl⟩ := h
      exact q1.step _ (fun _ => rfl)
    · split at h
      · simp only [Run.done.injEq] at h
        obtain ⟨-, rfl⟩ := h
        exact q1.step _ (fun _ => rfl)
      · split at h
        · split at h
          · simp only [Run.done.injEq] at h
            obtain ⟨-, rfl⟩ := h
            exact q1
          · split at h
            · simp only [Run.done.injEq] at h
              obtain ⟨-, rfl⟩ := h
              exact q1.report to_fd
            · split at h
              · exact fwd _ ((q1.step (Event.stderr "sending break...\n\r") (fun _ => rfl)).step
                  (Event.tcsendbreak to_fd 0) (fun _ => rfl)) h
              · exact fwd _ q1 h
        · exact fwd _ q1 h

theorem dispatch_quiet (comfd : Int) : ∀ (ev : List Int) (quit : Int) (w w1 : World) (q : Int),
    dispatch comfd ev quit w = Run.done q w1 → Quiet w w1 := by
  intro ev
  induction ev with
  | nil =>
    intro quit w w1 q h
    simp only [dispatch, Run.done.injEq] at h
    obtain ⟨-, rfl⟩ := h
    exact Quiet.refl _
  | cons fd rest ih =>
    intro quit w w1 q h
    unfold dispatch at h
    split at h
    · cases ht : transfer_data fd comfd 1 w with
      | done q0 w0 =>
        simp only [ht] at h
        exact (transfer_data_quiet _ _ _ _ _ _ ht).trans (ih _ _ _ _ h)
      | exit code w0 => simp [ht] at h
      | abort w0 => simp [ht] at h
      | stuck => simp [ht] at h
    · split at h
      · cases ht : transfer_data fd STDIN_FILENO 0 w with
        | done q0 w0 =>
          simp only [ht] at h
          exact (transfer_data_quiet _ _ _ _ _ _ ht).trans (ih _ _ _ _ h)
        | exit code w0 => simp [ht] at h
        | abort w0 => simp [ht] at h
        | stuck => simp [ht] at h
      · simp at h

theorem relay_loop_quiet (comfd : Int) : ∀ (fuel : Nat) (quit : Int) (w w1 : World) (q : Int),
    relay_loop comfd fuel quit w = Run.done q w1 → Quiet w w1 := by
  intro fuel
  induction fuel with
  | zero =>
    intro quit w w1 q h
    unfold relay_loop at h
    split at h
    · simp only [Run.done.injEq] at h
      obtain ⟨-, rfl⟩ := h
      exact Quiet.refl _
    · simp at h
  | succ fuel ih =>
    intro quit w w1 q h
    unfold relay_loop at h
    split at h
    · simp only [Run.done.injEq] at h
      obtain ⟨-, rfl⟩ := h
      exact Quiet.refl _
    · cases hs : sys_epoll_wait w with
      | none => simp [hs] at h
      | some x =>
        obtain ⟨n, ev, w0⟩ := x
        simp only [hs] at h
        have q0 : Quiet w w0 := sys_epoll_wait_quiet hs
        have q2 : Quiet w (if n ≤ 0 then emit (Event.perror "epoll_wait()") w0 else w0) :=
          q0.ite_step _ _ (fun _ => rfl)
        cases hd : dispatch comfd (ev.take n.toNat) quit
            (if n ≤ 0 then emit (Event.perror "epoll_wait()") w0 else w0) with
        | done q1 w3 =>
          simp only [hd] at h
          exact (q2.trans (dispatch_quiet _ _ _ _ _ _ hd)).trans (ih _ _ _ _ h)
        | exit code w3 => simp [hd] at h
        | abort w3 => simp [hd] at h
        | stuck => simp [hd] at h

/-- The results of `transfer_data`. -/
theorem transfer_data_result (from_fd to_fd is_control : Int) (w w2 : World) (r : Int)
    (h : transfer_data from_fd to_fd is_control w = Run.done r w2) :
    r = 0 ∨ r = -1 ∨ r = -2 ∨ r = -3 := by
  unfold transfer_data at h
  cases hs : read_retry from_fd w.reads.length w with
  | none => simp [hs] at h
  | some x =>
    obtain ⟨ret, c, w1⟩ := x
    simp only [hs] at h
    have fwd : ∀ (w3 : World),
        (match write_retry to_fd (c.take ret.toNat) w3.writes.length w3 with
          | none => Run.stuck
          | some w4 => Run.done 0 w4) = Run.done r w2 → r = 0 := by
      intro w3 h3
      cases hw : write_retry to_fd (c.take ret.toNat) w3.writes.length w3 with
      | none => simp [hw] at h3
      | some w4 =>
        simp only [hw, Run.done.injEq] at h3
        exact h3.1.symm
    split at h
    · simp only [Run.done.injEq] at h
      exact Or.inr (Or.inr (Or.inr h.1.symm))
    · split at h
      · simp only [Run.done.injEq] at h
        exact Or.inr (Or.inr (Or.inl h.1.symm))
      · split at h
        · split at h
          · simp only [Run.done.injEq] at h
            exact Or.inr (Or.inl h.1.symm)
          · split at h
            · simp only [Run.done.injEq] at h
              exact Or.inl h.1.symm
            · split at h
              · exact Or.inl (fwd _ h)
              · exact Or.inl (fwd _ h)
        · exact Or.inl (fwd _ h)

/-- After a wait cycle `quit` is what it was or a result of `transfer_data`. -/
theorem dispatch_result (comfd : Int) : ∀ (ev : List Int) (quit : Int) (w w1 : World) (q : Int),
    dispatch comfd ev quit w = Run.done q w1 →
    q = quit ∨ q = 0 ∨ q = -1 ∨ q = -2 ∨ q = -3 := by
  intro ev
  induction ev with
  | nil =>
    intro quit w w1 q h
    simp only [dispatch, Run.done.injEq] at h
    exact Or.inl h.1.symm
  | cons fd rest ih =>
    intro quit w w1 q h
    unfold dispatch at h
    split at h
    · cases ht : transfer_data fd comfd 1 w with
      | done q0 w0 =>
        simp only [ht] at h
        rcases ih _ _ _ _ h with e | e
        · rw [e]
          exact Or.inr (transfer_data_result _ _ _ _ _ _ ht)
        · exact Or.inr e
      | exit code w0 => simp [ht] at h
      | abort w0 => simp [ht] at h
      | stuck => simp [ht] at h
    · split at h
      · cases ht : transfer_data fd STDIN_FILENO 0 w with
        | done q0 w0 =>
          simp only [ht] at h
          rcases ih _ _ _ _ h with e | e
          · rw [e]
            exact Or.inr (transfer_data_result _ _ _ _ _ _ ht)
          · exact Or.inr e
        | exit code w0 => simp [ht] at h
        | abort w0 => simp [ht] at h
        | stuck => simp [ht] at h
      · simp at h

/-- The loop returns only with `quit` set, to its initial value or to a result
of `transfer_data`. -/
theorem relay_loop_result (comfd : Int) : ∀ (fuel : Nat) (quit : Int) (w w1 : World) (q : Int),
    relay_loop comfd fuel quit w = Run.done q w1 →
    q ≠ 0 ∧ (q = quit ∨ q = -1 ∨ q = -2 ∨ q = -3) := by
  intro fuel
  induction fuel with
  | zero =>
    intro quit w w1 q h
    unfold relay_loop at h
    split at h
    · simp only [Run.done.injEq] at h
      obtain ⟨rfl, -⟩ := h
      exact ⟨by assumption, Or.inl rfl⟩
    · simp at h
  | succ fuel ih =>
    intro quit w w1 q h
    unfold relay_loop at h
    split at h
    · simp only [Run.done.injEq] at h
      obtain ⟨rfl, -⟩ := h
      exact ⟨by assumption, Or.inl rfl⟩
    · cases hs : sys_epoll_wait w with
      | none => simp [hs] at h
      | some x =>
        obtain ⟨n, ev, w0⟩ := x
        simp only [hs] at h
        cases hd : dispatch comfd (ev.take n.toNat) quit
            (if n ≤ 0 then emit (Event.perror "epoll_wait()") w0 else w0) with
        | done q1 w3 =>
          simp only [hd] at h
          obtain ⟨hq, hq1⟩ := ih _ _ _ _ h
          refine ⟨hq, ?_⟩
          rcases hq1 with e | e
          · rcases dispatch_result _ _ _ _ _ _ hd with d | d | d
            · exact Or.inl (e.trans d)
            · exact absurd (e.trans d) hq
            · exact Or.inr (e ▸ d)
          · exact Or.inr e
        | exit code w3 => simp [hd] at h
        | abort w3 => simp [hd] at h
        | stuck => simp [hd] at h

/-! ## The start-up of main -/

theorem scan_speeds_fst (arg : String) : ∀ (l : List speed_spec) (sp : Nat) (w : World),
    (scan_speeds arg l sp w).1 =
      ((l.find? (fun s => decide (s.name = arg))).map speed_spec.flag).getD sp := by
  intro l
  induction l with
  | nil =>
    intro sp w
    rfl
  | cons s rest ih =>
    intro sp w
    by_cases h : s.name = arg
    · simp [scan_speeds, List.find?, h]
    · simp [scan_speeds, List.find?, h, ih]

theorem scan_speeds_quiet (arg : String) : ∀ (l : List speed_spec) (sp : Nat) (w : World),
    Quiet w (scan_speeds arg l sp w).2 := by
  intro l
  induction l with
  | nil =>
    intro sp w
    exact Quiet.refl w
  | cons s rest ih =>
    intro sp w
    by_cases h : s.name = arg
    · simp only [scan_speeds, h, ne_eq, not_true_eq_false, if_false]
      exact (Quiet.refl w).step _ (fun _ => rfl)
    · simp only [scan_speeds, h, ne_eq, not_false_eq_true, if_true]
      exact ih sp w

theorem select_speed_quiet (argv : List String) (w : World) :
    Quiet w (select_speed argv w).2 := by
  unfold select_speed
  split
  · exact scan_speeds_quiet _ _ _ _
  · exact Quiet.refl w

theorem sys_tcsetattr_attrs (fd : Int) (t : termios) (w : World) :
    (sys_tcsetattr fd t w).attrs = Function.update w.attrs fd t := rfl

theorem sys_tcsetattr_trace (fd : Int) (t : termios) (w : World) :
    (sys_tcsetattr fd t w).trace = w.trace ++ [Event.tcsetattr fd t] := rfl

theorem applied_tcsetattr (fd fd1 : Int) (t : termios) :
    applied fd [Event.tcsetattr fd1 t] = if fd1 = fd then [t] else [] := by
  simp only [applied]

/-- What the start-up of `main` leaves behind when the device opens: the
attributes it has captured, the attributes it has applied, and the two
`tcsetattr` calls it has issued. -/
theorem main_init_done (argv : List String) (nk nt : termios) (w : World)
    (h2 : ¬ argv.length < 2) (hopen : ¬ w.open_ret < 0) :
    ∃ l w1 d, main_init argv nk nt w = Run.done l w1 ∧
      l.comfd = w.open_ret ∧
      l.speed = (select_speed argv (emit (Event.sys_open (argv.getD 1 "")) w)).1 ∧
      l.oldkey = w.attrs STDIN_FILENO ∧
      l.oldtio = Function.update w.attrs STDIN_FILENO (fill_newkey nk) w.open_ret ∧
      l.newkey = fill_newkey nk ∧
      l.newtio = fill_newtio l.speed nt ∧
      w1.attrs = Function.update (Function.update w.attrs STDIN_FILENO l.newkey)
        l.comfd l.newtio ∧
      w1.trace = w.trace ++ d ∧
      ∀ fd, applied fd d =
        (if STDIN_FILENO = fd then [l.newkey] else []) ++
        (if l.comfd = fd then [l.newtio] else []) := by
  let w0 := emit (Event.sys_open (argv.getD 1 "")) w
  let speed := (select_speed argv w0).1
  let wA := emit (Event.tcflush STDIN_FILENO) (emit (Event.tcgetattr STDIN_FILENO)
    (emit (Event.stderr "C-a exit, C-x modem lines status\n") (select_speed argv w0).2))
  let wB := sys_tcsetattr STDIN_FILENO (fill_newkey nk) wA
  let wC := emit (Event.tcflush w.open_ret) (emit (Event.tcgetattr w.open_ret) wB)
  let wD := sys_tcsetattr w.open_ret (fill_newtio speed nt) wC
  let w5 := emit Event.epoll_create (print_status w.open_ret wD)
  let w6 := if w5.epoll_create_ret = -1 then emit (Event.perror "epoll_create") w5 else w5
  let w7 := emit (Event.epoll_ctl_add STDIN_FILENO) w6
  let w8 := if w7.epoll_ctl_ret STDIN_FILENO ≠ 0 then emit (Event.perror "epoll_ctl") w7 else w7
  let w9 := emit (Event.epoll_ctl_add w.open_ret) w8
  let wE := if w9.epoll_ctl_ret w.open_ret ≠ 0 then emit (Event.perror "epoll_ctl") w9 else w9
  have hmain : main_init argv nk nt w =
      Run.done ⟨w.open_ret, speed, wB.attrs w.open_ret, fill_newtio speed nt,
        wA.attrs STDIN_FILENO, fill_newkey nk⟩ wE := by
    simp only [main_init, if_neg h2, if_neg hopen]
    rfl
  have qA : Quiet w wA :=
    (((((Quiet.refl w).step (Event.sys_open (argv.getD 1 "")) (fun _ => rfl)).trans
      (select_speed_quiet argv w0)).step
        (Event.stderr "C-a exit, C-x modem lines status\n") (fun _ => rfl)).step
        (Event.tcgetattr STDIN_FILENO) (fun _ => rfl)).step
        (Event.tcflush STDIN_FILENO) (fun _ => rfl)
  have qC : Quiet wB wC :=
    ((Quiet.refl wB).step (Event.tcgetattr w.open_ret) (fun _ => rfl)).step
      (Event.tcflush w.open_ret) (fun _ => rfl)
  have qE : Quiet wD wE :=
    ((((((Quiet.refl wD).report w.open_ret).step Event.epoll_create (fun _ => rfl)).ite_step _
      (Event.perror "epoll_create") (fun _ => rfl)).step
        (Event.epoll_ctl_add STDIN_FILENO) (fun _ => rfl)).ite_step _
      (Event.perror "epoll_ctl") (fun _ => rfl)).step
        (Event.epoll_ctl_add w.open_ret) (fun _ => rfl) |>.ite_step _
      (Event.perror "epoll_ctl") (fun _ => rfl)
  obtain ⟨aA, dA, tA, pA⟩ := qA
  obtain ⟨aC, dC, tC, pC⟩ := qC
  obtain ⟨aE, dE, tE, pE⟩ := qE
  have hB : wB.attrs = Function.update w.attrs STDIN_FILENO (fill_newkey nk) := by
    rw [sys_tcsetattr_attrs, aA]
  refine ⟨_, wE,
    dA ++ ([Event.tcsetattr STDIN_FILENO (fill_newkey nk)] ++
      (dC ++ ([Event.tcsetattr w.open_ret (fill_newtio speed nt)] ++ dE))),
    hmain, rfl, rfl, ?_, ?_, rfl, rfl, ?_, ?_, ?_⟩
  · show wA.attrs STDIN_FILENO = w.attrs STDIN_FILENO
    rw [aA]
  · show wB.attrs w.open_ret = _
    rw [hB]
  · show wE.attrs = _
    rw [aE, sys_tcsetattr_attrs, aC, hB]
  · show wE.trace = _
    rw [tE, sys_tcsetattr_trace, tC, sys_tcsetattr_trace, tA]
    simp only [List.append_assoc]
  · intro fd
    simp only [applied_append, pA, pC, pE, applied_tcsetattr, List.nil_append,
      List.append_nil]

/-! ## The claims on main -/

/-- C8. Restoration round trip.  When the program is given a device and the
device opens, the start-up of `main` returns, and whenever the relay loop
that follows it stops, with whatever value of `quit`, that value is -1 (exit
request), -2 (read failure) or -3 (endpoint closed), `main` returns 0, and
the line-discipline configuration of every descriptor is what it was when
`main` started; when the serial port is a descriptor of its own, `main` has
called `tcsetattr` exactly twice on each of the two endpoints, the first time
with the raw settings and the second time with the attributes the endpoint
had at the start, these two restoring calls and the `close` being the last
three events. -/
theorem main_restores (argv : List String) (nk nt : termios) (w : World)
    (h2 : 2 ≤ argv.length) (hopen : 0 ≤ w.open_ret) :
    ∃ l wi, main_init argv nk nt w = Run.done l wi ∧ l.comfd = w.open_ret ∧
      ∀ q w2, relay_loop l.comfd wi.waits.length 0 wi = Run.done q w2 →
        (q = -1 ∨ q = -2 ∨ q = -3) ∧
        ∃ w1, main argv nk nt w = Run.done 0 w1 ∧
          (∀ fd, w1.attrs fd = w.attrs fd) ∧
          (w.open_ret ≠ STDIN_FILENO →
            ∃ d body speed, w1.trace = w.trace ++ d ∧
              applied STDIN_FILENO d = [fill_newkey nk, w.attrs STDIN_FILENO] ∧
              applied w.open_ret d = [fill_newtio speed nt, w.attrs w.open_ret] ∧
              d = body ++ [Event.tcsetattr w.open_ret (w.attrs w.open_ret),
                           Event.tcsetattr STDIN_FILENO (w.attrs STDIN_FILENO),
                           Event.close w.open_ret]) := by
  obtain ⟨l, wi, di, hinit, hcom, -, hoky, hotio, hnky, hntio, hattrs, htrace, happ⟩ :=
    main_init_done argv nk nt w (not_lt.mpr h2) (not_lt.mpr hopen)
  refine ⟨l, wi, hinit, hcom, ?_⟩
  intro q w2 hl
  obtain ⟨hq, hqs⟩ := relay_loop_result _ _ _ _ _ _ hl
  obtain ⟨a2, d2, t2, p2⟩ := relay_loop_quiet _ _ _ _ _ _ hl
  refine ⟨?_, emit (Event.close l.comfd)
    (sys_tcsetattr STDIN_FILENO l.oldkey (sys_tcsetattr l.comfd l.oldtio w2)), ?_, ?_, ?_⟩
  · rcases hqs with e | e
    · exact absurd e hq
    · exact e
  · simp only [main, hinit, hl]
  · intro fd
    show Function.update (Function.update w2.attrs l.comfd l.oldtio) STDIN_FILENO l.oldkey fd
      = w.attrs fd
    rw [a2, hattrs, hoky, hotio, hcom]
    by_cases hfd : fd = STDIN_FILENO
    · subst hfd
      simp
    · by_cases hfc : fd = w.open_ret
      · subst hfc
        simp [Function.update_apply, hfd]
      · simp [Function.update_apply, hfd, hfc]
  · intro hne
    have hne2 : ¬ STDIN_FILENO = w.open_ret := fun e => hne e.symm
    have hotio2 : l.oldtio = w.attrs w.open_ret := by
      rw [hotio]
      simp [Function.update_apply, hne]
    have htr1 : (emit (Event.close l.comfd)
        (sys_tcsetattr STDIN_FILENO l.oldkey (sys_tcsetattr l.comfd l.oldtio w2))).trace =
        w2.trace ++ [Event.tcsetattr l.comfd l.oldtio,
          Event.tcsetattr STDIN_FILENO l.oldkey, Event.close l.comfd] := by
      simp [emit, sys_tcsetattr]
    refine ⟨(di ++ d2) ++ [Event.tcsetattr w.open_ret (w.attrs w.open_ret),
        Event.tcsetattr STDIN_FILENO (w.attrs STDIN_FILENO), Event.close w.open_ret],
      di ++ d2, l.speed, ?_, ?_, ?_, rfl⟩
    · rw [htr1, t2, htrace, hcom, hoky, hotio2, List.append_assoc, List.append_assoc,
        List.append_assoc]
    · simp only [applied_append, happ, p2, hcom, hnky, applied, if_true, if_neg hne,
        List.nil_append, List.append_nil, List.singleton_append]
    · simp only [applied_append, happ, p2, hcom, hntio, applied, if_true,
        if_neg hne2, List.nil_append, List.append_nil, List.singleton_append]

/-- Witness of C8: three runs of `main` on a device that opens as descriptor
3, each with one wait cycle: the serial port is closed (a read of zero bytes,
`quit` = -3), the read from the serial port fails with `EIO` (`quit` = -2),
the operator types Ctrl-A (`quit` = -1).  Each time `main` returns 0 with the
configuration of every descriptor as it was. -/
theorem main_restores_witness :
    (∃ w1, main ["com", "/dev/ttyS0"] termios_zero termios_zero
        (World.scripted [ReadOutcome.data []] [] [WaitOutcome.ready [3]] 3) = Run.done 0 w1 ∧
      ∀ fd, w1.attrs fd =
        (World.scripted [ReadOutcome.data []] [] [WaitOutcome.ready [3]] 3).attrs fd) ∧
    (∃ w1, main ["com", "/dev/ttyS0"] termios_zero termios_zero
        (World.scripted [ReadOutcome.fail 5] [] [WaitOutcome.ready [3]] 3) = Run.done 0 w1 ∧
      ∀ fd, w1.attrs fd =
        (World.scripted [ReadOutcome.fail 5] [] [WaitOutcome.ready [3]] 3).attrs fd) ∧
    (∃ w1, main ["com", "/dev/ttyS0"] termios_zero termios_zero
        (World.scripted [ReadOutcome.data [0x01]] [] [WaitOutcome.ready [0]] 3) = Run.done 0 w1 ∧
      ∀ fd, w1.attrs fd =
        (World.scripted [ReadOutcome.data [0x01]] [] [WaitOutcome.ready [0]] 3).attrs fd) := by
  refine ⟨?_, ?_, ?_⟩
  · obtain ⟨l, wi, hinit, -, hall⟩ := main_restores ["com", "/dev/ttyS0"] termios_zero
      termios_zero (World.scripted [ReadOutcome.data []] [] [WaitOutcome.ready [3]] 3)
      (by decide) (by decide)
    have h0 : main_init ["com", "/dev/ttyS0"] termios_zero termios_zero
        (World.scripted [ReadOutcome.data []] [] [WaitOutcome.ready [3]] 3) =
        Run.done ((main_init ["com", "/dev/ttyS0"] termios_zero termios_zero
          (World.scripted [ReadOutcome.data []] [] [WaitOutcome.ready [3]] 3)).value Locals.zero)
          ((main_init ["com", "/dev/ttyS0"] termios_zero termios_zero
          (World.scripted [ReadOutcome.data []] [] [WaitOutcome.ready [3]] 3)).world (World.scripted [] [] [] 3)) := rfl
    rw [h0] at hinit
    simp only [Run.done.injEq] at hinit
    obtain ⟨e1, e2⟩ := hinit
    subst e1
    subst e2
    obtain ⟨-, w1, hm, ha, -⟩ := hall (-3) _ rfl
    exact ⟨w1, hm, ha⟩
  · obtain ⟨l, wi, hinit, -, hall⟩ := main_restores ["com", "/dev/ttyS0"] termios_zero
      termios_zero (World.scripted [ReadOutcome.fail 5] [] [WaitOutcome.ready [3]] 3)
      (by decide) (by decide)
    have h0 : main_init ["com", "/dev/ttyS0"] termios_zero termios_zero
        (World.scripted [ReadOutcome.fail 5] [] [WaitOutcome.ready [3]] 3) =
        Run.done ((main_init ["com", "/dev/ttyS0"] termios_zero termios_zero
          (World.scripted [ReadOutcome.fail 5] [] [WaitOutcome.ready [3]] 3)).value Locals.zero)
          ((main_init ["com", "/dev/ttyS0"] termios_zero termios_zero
          (World.scripted [ReadOutcome.fail 5] [] [WaitOutcome.ready [3]] 3)).world (World.scripted [] [] [] 3)) := rfl
    rw [h0] at hinit
    simp only [Run.done.injEq] at hinit
    obtain ⟨e1, e2⟩ := hinit
    subst e1
    subst e2
    obtain ⟨-, w1, hm, ha, -⟩ := hall (-2) _ rfl
    exact ⟨w1, hm, ha⟩
  · obtain ⟨l, wi, hinit, -, hall⟩ := main_restores ["com", "/dev/ttyS0"] termios_zero
      termios_zero (World.scripted [ReadOutcome.data [0x01]] [] [WaitOutcome.ready [0]] 3)
      (by decide) (by decide)
    have h0 : main_init ["com", "/dev/ttyS0"] termios_zero termios_zero
        (World.scripted [ReadOutcome.data [0x01]] [] [WaitOutcome.ready [0]] 3) =
        Run.done ((main_init ["com", "/dev/ttyS0"] termios_zero termios_zero
          (World.scripted [ReadOutcome.data [0x01]] [] [WaitOutcome.ready [0]] 3)).value Locals.zero)
          ((main_init ["com", "/dev/ttyS0"] termios_zero termios_zero
          (World.scripted [ReadOutcome.data [0x01]] [] [WaitOutcome.ready [0]] 3)).world (World.scripted [] [] [] 3)) := rfl
    rw [h0] at hinit
    simp only [Run.done.injEq] at hinit
    obtain ⟨e1, e2⟩ := hinit
    subst e1
    subst e2
    obtain ⟨-, w1, hm, ha, -⟩ := hall (-1) _ rfl
    exact ⟨w1, hm, ha⟩

theorem scan_speeds_none (arg : String) : ∀ (l : List speed_spec) (sp : Nat) (w : World),
    (∀ s ∈ l, s.name ≠ arg) → scan_speeds arg l sp w = (sp, w) := by
  intro l
  induction l with
  | nil =>
    intro sp w _
    rfl
  | cons s rest ih =>
    intro sp w h
    have hs : s.name ≠ arg := h s (List.mem_cons_self s rest)
    simp only [scan_speeds, hs, ne_eq, not_false_eq_true, if_true]
    exact ih sp w (fun t ht => h t (List.mem_cons_of_mem s ht))

/-- Every row of the table is the first row with its name. -/
theorem speeds_find (s : speed_spec) (hs : s ∈ speeds) :
    speeds.find? (fun t => decide (t.name = s.name)) = some s := by
  revert s
  decide

/-- The speed bits of the control word `main` builds are the speed of the row. -/
theorem speeds_cflag (s : speed_spec) (hs : s ∈ speeds) :
    (s.flag ||| CS8 ||| CLOCAL ||| CREAD) &&& CBAUD = s.flag := by
  revert s
  decide

/-- C9. Baud-rate selection, with the device opened, whatever arguments
follow the second one (`argc > 2`).  If the second argument is the name of one
of the 30 rows of the table, the start-up of `main` returns with `speed` equal
to the speed constant of that row and the control word in force on the serial
port is that constant or-ed with `CS8 | CLOCAL | CREAD`, from which the speed
bits give the constant back.  If the second argument is any other string, or
there is none, `speed` is `B115200` and the control word is built from it; for
another string `main` runs exactly as it does without a second argument, so no
error is raised. -/
theorem baud_rate_selection (prog dev : String) (rest : List String) (nk nt : termios)
    (w : World) (hopen : 0 ≤ w.open_ret) :
    speeds.length = 30 ∧
    (∀ s ∈ speeds, ∃ l w1,
      main_init (prog :: dev :: s.name :: rest) nk nt w = Run.done l w1 ∧
      l.comfd = w.open_ret ∧ l.speed = s.flag ∧
      (w1.attrs l.comfd).c_cflag = s.flag ||| CS8 ||| CLOCAL ||| CREAD ∧
      (w1.attrs l.comfd).c_cflag &&& CBAUD = s.flag) ∧
    (∀ arg, (∀ s ∈ speeds, s.name ≠ arg) →
      (∃ l w1, main_init (prog :: dev :: arg :: rest) nk nt w = Run.done l w1 ∧
        l.comfd = w.open_ret ∧ l.speed = B115200 ∧
        (w1.attrs l.comfd).c_cflag = B115200 ||| CS8 ||| CLOCAL ||| CREAD) ∧
      main (prog :: dev :: arg :: rest) nk nt w = main [prog, dev] nk nt w) ∧
    (∃ l w1, main_init [prog, dev] nk nt w = Run.done l w1 ∧
      l.comfd = w.open_ret ∧ l.speed = B115200 ∧
      (w1.attrs l.comfd).c_cflag = B115200 ||| CS8 ||| CLOCAL ||| CREAD) := by
  have hopen1 : ¬ w.open_ret < 0 := not_lt.mpr hopen
  have key : ∀ (argv : List String), ¬ argv.length < 2 →
      ∃ l w1, main_init argv nk nt w = Run.done l w1 ∧ l.comfd = w.open_ret ∧
        l.speed = (select_speed argv (emit (Event.sys_open (argv.getD 1 "")) w)).1 ∧
        (w1.attrs l.comfd).c_cflag = l.speed ||| CS8 ||| CLOCAL ||| CREAD := by
    intro argv h2
    obtain ⟨l, w1, d, hinit, hcom, hsp, -, -, -, hntio, hattrs, -, -⟩ :=
      main_init_done argv nk nt w h2 hopen1
    refine ⟨l, w1, hinit, hcom, hsp, ?_⟩
    rw [hattrs, Function.update_same, hntio]
    rfl
  have hlen3 : ∀ (arg : String), (prog :: dev :: arg :: rest).length > 2 := by
    intro arg
    simp only [List.length_cons]
    omega
  have hlen2 : ∀ (arg : String), ¬ (prog :: dev :: arg :: rest).length < 2 := by
    intro arg
    simp only [List.length_cons]
    omega
  refine ⟨rfl, ?_, ?_, ?_⟩
  · intro s hs
    obtain ⟨l, w1, hinit, hcom, hsp, hc⟩ := key (prog :: dev :: s.name :: rest) (hlen2 _)
    have hflag : l.speed = s.flag := by
      rw [hsp]
      simp only [select_speed, if_pos (hlen3 s.name), List.getD_cons_succ,
        List.getD_cons_zero]
      rw [scan_speeds_fst, speeds_find s hs]
      rfl
    refine ⟨l, w1, hinit, hcom, hflag, ?_, ?_⟩
    · rw [hc, hflag]
    · rw [hc, hflag]
      exact speeds_cflag s hs
  · intro arg harg
    have hsel : ∀ w0, select_speed (prog :: dev :: arg :: rest) w0 = (B115200, w0) := by
      intro w0
      simp only [select_speed, if_pos (hlen3 arg), List.getD_cons_succ, List.getD_cons_zero]
      exact scan_speeds_none arg speeds B115200 w0 harg
    constructor
    · obtain ⟨l, w1, hinit, hcom, hsp, hc⟩ := key (prog :: dev :: arg :: rest) (hlen2 _)
      have hflag : l.speed = B115200 := by
        rw [hsp, hsel]
      exact ⟨l, w1, hinit, hcom, hflag, by rw [hc, hflag]⟩
    · have hinit : main_init (prog :: dev :: arg :: rest) nk nt w =
          main_init [prog, dev] nk nt w := by
        simp only [main_init, hsel, if_neg (hlen2 arg)]
        rfl
      simp only [main, hinit]
  · obtain ⟨l, w1, hinit, hcom, hsp, hc⟩ := key [prog, dev] (by simp)
    have hflag : l.speed = B115200 := by
      rw [hsp]
      rfl
    exact ⟨l, w1, hinit, hcom, hflag, by rw [hc, hflag]⟩

/-- Witness of C9: a device that opens as descriptor 3; the row `9600`, the
row `57600` followed by a further argument, and the string `999999`. -/
theorem baud_rate_selection_witness :
    (∃ l w1, main_init ["com", "/dev/ttyS0", "9600"] termios_zero termios_zero
        (World.scripted [] [] [] 3) = Run.done l w1 ∧
      l.comfd = 3 ∧ l.speed = B9600 ∧
      (w1.attrs l.comfd).c_cflag = B9600 ||| CS8 ||| CLOCAL ||| CREAD ∧
      (w1.attrs l.comfd).c_cflag &&& CBAUD = B9600) ∧
    (∃ l w1, main_init ["com", "/dev/ttyS0", "57600", "19200"] termios_zero termios_zero
        (World.scripted [] [] [] 3) = Run.done l w1 ∧
      l.comfd = 3 ∧ l.speed = B57600 ∧
      (w1.attrs l.comfd).c_cflag = B57600 ||| CS8 ||| CLOCAL ||| CREAD ∧
      (w1.attrs l.comfd).c_cflag &&& CBAUD = B57600) ∧
    (∃ l w1, main_init ["com", "/dev/ttyS0", "999999"] termios_zero termios_zero
        (World.scripted [] [] [] 3) = Run.done l w1 ∧
      l.comfd = 3 ∧ l.speed = B115200 ∧
      (w1.attrs l.comfd).c_cflag = B115200 ||| CS8 ||| CLOCAL ||| CREAD) :=
  ⟨(baud_rate_selection "com" "/dev/ttyS0" [] termios_zero termios_zero
      (World.scripted [] [] [] 3) (by decide)).2.1 ⟨"9600", B9600⟩ (by decide),
   (baud_rate_selection "com" "/dev/ttyS0" ["19200"] termios_zero termios_zero
      (World.scripted [] [] [] 3) (by decide)).2.1 ⟨"57600", B57600⟩ (by decide),
   ((baud_rate_selection "com" "/dev/ttyS0" [] termios_zero termios_zero
      (World.scripted [] [] [] 3) (by decide)).2.2.1 "999999" (by decide)).1⟩

/-- C6, at a wait cycle that reports the terminal and then the serial port.
The operator has typed Ctrl-A and the serial port has sent `A`.  The call for
the terminal returns -1, the call for the serial port returns 0 and is stored
in `quit` over the -1: after the cycle `quit` is 0, and `main` starts a second
wait cycle, in which it happens to read a second Ctrl-A. -/
theorem relay_loop_overwrites_quit :
    (transfer_data STDIN_FILENO 3 1
      (World.scripted [ReadOutcome.data [0x01], ReadOutcome.data [0x41]] [WriteOutcome.ok 1]
        [] 3)).result = some (-1) ∧
    (dispatch 3 [STDIN_FILENO, 3] 0
      (World.scripted [ReadOutcome.data [0x01], ReadOutcome.data [0x41]] [WriteOutcome.ok 1]
        [] 3)).result = some 0 ∧
    wait_cycles (main ["com", "/dev/ttyS0"] termios_zero termios_zero
      (World.scripted [ReadOutcome.data [0x01], ReadOutcome.data [0x41], ReadOutcome.data [0x01]]
        [WriteOutcome.ok 1] [WaitOutcome.ready [STDIN_FILENO, 3], WaitOutcome.ready [STDIN_FILENO]]
        3)).events = 2 ∧
    (main ["com", "/dev/ttyS0"] termios_zero termios_zero
      (World.scripted [ReadOutcome.data [0x01], ReadOutcome.data [0x41]]
        [WriteOutcome.ok 1] [WaitOutcome.ready [STDIN_FILENO, 3]] 3)).result = none := by
  decide

end Com
